import Mathlib

/-!
Verification model of the AnnonChat realtime chat server.

The definitions below are a shallow embedding of the TypeScript source:
* `server/profanityFilter.ts` — the regex-based moderation pipeline
  (`profanePatterns`, `warningPatterns`, `checkProfanity`, `filterContent`,
  `getSpamScore`, `isSpam`);
* `server/routes.ts` — `sanitizeMessage`, `sendToUser`, `matchUsers`,
  `handleDisconnect` and the WebSocket frame dispatcher;
* `server/storage.ts` — the in-memory waiting queue, active-chat map and
  the `rate_limits`-table based `checkRateLimit` / `incrementRateLimit`;
* `shared/schema.ts` — the `messageSchema` validation and event names.

JavaScript strings are modelled as `List Char` (the inputs of interest are
in the Basic Multilingual Plane, where UTF-16 code units and code points
coincide).  The JavaScript regexes of the source all carry the `g` flag and
are module-level constants, so `RegExp.test` advances and consults the
mutable `lastIndex` of each pattern; the engine below implements exactly
that semantics (`jsTest`), plus the leftmost greedy backtracking search of
a JS engine (`mtch`, `scan`, `findFrom`).
-/

set_option maxRecDepth 8000

namespace AnnonChat

/-- `\w` of JavaScript: `[A-Za-z0-9_]`. -/
def isWordChar (c : Char) : Bool :=
  (97 ≤ c.toNat && c.toNat ≤ 122) || (65 ≤ c.toNat && c.toNat ≤ 90) ||
  (48 ≤ c.toNat && c.toNat ≤ 57) || c.toNat == 95

/-- `\s` of JavaScript: WhiteSpace and LineTerminator code points. -/
def isJsSpace (c : Char) : Bool :=
  c.toNat == 32 || c.toNat == 9 || c.toNat == 10 || c.toNat == 11 ||
  c.toNat == 12 || c.toNat == 13 || c.toNat == 0xa0 || c.toNat == 0x1680 ||
  (0x2000 ≤ c.toNat && c.toNat ≤ 0x200a) || c.toNat == 0x2028 ||
  c.toNat == 0x2029 || c.toNat == 0x202f || c.toNat == 0x205f ||
  c.toNat == 0x3000 || c.toNat == 0xfeff

/-- `.` of JavaScript (without the `s` flag): anything but a line terminator. -/
def isDotChar (c : Char) : Bool :=
  !(c.toNat == 10 || c.toNat == 13 || c.toNat == 0x2028 || c.toNat == 0x2029)

/-- Regular-expression abstract syntax, covering the constructs used by the
regex literals of `profanityFilter.ts`.  `chrun k ci` embeds the
backreference idiom `(.)\1{k,}` (one character followed by at least `k`
repetitions of the same character), with `ci` recording the `i` flag. -/
inductive RE : Type where
  | eps : RE
  | pred (p : Char → Bool) : RE
  | cat (a b : RE) : RE
  | alt (a b : RE) : RE
  | star (a : RE) : RE
  | wb : RE
  | chrun (k : Nat) (ci : Bool) : RE

/-- `\b`: word/non-word transition between the previous character and the
head of the remaining input. -/
def wordBoundary (pv : Option Char) (s : List Char) : Bool :=
  (match pv with | none => false | some c => isWordChar c) !=
  (match s with | [] => false | c :: _ => isWordChar c)

/-- Result of consuming `n` further copies of `c` from `t`. -/
def chrunRes (c : Char) (t : List Char) (n : Nat) : Option Char × List Char :=
  (some ((t.take n).getLastD c), t.drop n)

/-- The `(.)\1{k,}` step: one non-terminator character followed by at
least `k` more copies of it, longest first (greedy). -/
def chrunM (k : Nat) (ci : Bool) (s : List Char) :
    List (Option Char × List Char) :=
  match s with
  | [] => []
  | c :: t =>
    if isDotChar c then
      let run := (t.takeWhile (fun x =>
        if ci then x.toLower == c.toLower else x == c)).length
      if k ≤ run then
        (List.range (run - k + 1)).map (fun i => chrunRes c t (run - i))
      else []
    else []

/-- Matcher at exhausted repetition fuel: `star` contributes only its
empty iteration. -/
def mtchZ : RE → Option Char → List Char → List (Option Char × List Char)
  | .eps, pv, s => [(pv, s)]
  | .pred _, _, [] => []
  | .pred p, _, c :: t => if p c then [(some c, t)] else []
  | .wb, pv, s => if wordBoundary pv s then [(pv, s)] else []
  | .chrun k ci, _, s => chrunM k ci s
  | .cat a b, pv, s => (mtchZ a pv s).flatMap (fun pr => mtchZ b pr.1 pr.2)
  | .alt a b, pv, s => mtchZ a pv s ++ mtchZ b pv s
  | .star _, pv, s => [(pv, s)]

/-- One fuel layer of the backtracking matcher: `rec` matches with one
unit of repetition fuel less.  A `star` first tries iterations whose body
consumed at least one character (greedy, preferred), then the empty
iteration — the progress requirement every JS engine imposes on
quantifiers. -/
def mtchS (rec : RE → Option Char → List Char → List (Option Char × List Char)) :
    RE → Option Char → List Char → List (Option Char × List Char)
  | .eps, pv, s => [(pv, s)]
  | .pred _, _, [] => []
  | .pred p, _, c :: t => if p c then [(some c, t)] else []
  | .wb, pv, s => if wordBoundary pv s then [(pv, s)] else []
  | .chrun k ci, _, s => chrunM k ci s
  | .cat a b, pv, s => (mtchS rec a pv s).flatMap (fun pr => mtchS rec b pr.1 pr.2)
  | .alt a b, pv, s => mtchS rec a pv s ++ mtchS rec b pv s
  | .star a, pv, s =>
    ((mtchS rec a pv s).filter (fun pr => pr.2.length < s.length)).flatMap
      (fun pr => rec (.star a) pr.1 pr.2) ++ [(pv, s)]

/-- Backtracking matcher.  `mtch fuel re pv s` returns the list of
`(last consumed char, remaining input)` continuations, ordered by the
preference of a JavaScript engine (greedy repetition first, left
alternative first).  `pv` is the character just before the current
position (for `\b`).  `fuel` bounds `star` unfoldings; every starred
subexpression of the source patterns consumes at least one character per
iteration, so `length s + 1` is always sufficient. -/
def mtch : Nat → RE → Option Char → List Char → List (Option Char × List Char)
  | 0 => mtchZ
  | f + 1 => mtchS (mtch f)

/-- Scan for the leftmost match at or after the current position `pos`;
returns absolute `(start, end)` of the preferred match. -/
def scan (re : RE) (pv : Option Char) (s : List Char) (pos : Nat) :
    Option (Nat × Nat) :=
  match (mtch (s.length + 1) re pv s).head? with
  | some pr => some (pos, pos + (s.length - pr.2.length))
  | none =>
    match s with
    | [] => none
    | c :: t => scan re (some c) t (pos + 1)

/-- First match of `re` in `s` at a position `≥ i` (as `RegExpExec` does
when `lastIndex = i`). -/
def findFrom (re : RE) (s : List Char) (i : Nat) : Option (Nat × Nat) :=
  if s.length < i then none
  else scan re (s.take i).getLast? (s.drop i) i

/-- `RegExp.test` for a `g`-flag regex: consults `lastIndex` `li`, returns
the verdict together with the new `lastIndex` (the match end on success,
`0` on failure — exactly the ECMAScript behaviour). -/
def jsTest (re : RE) (s : List Char) (li : Nat) : Bool × Nat :=
  match findFrom re s li with
  | none => (false, 0)
  | some pr => (true, pr.2)

/-- Test with `lastIndex = 0`: the behaviour of a freshly created regex
literal (used by `getSpamScore`, whose literals are re-created per call). -/
def test0 (re : RE) (s : List Char) : Bool :=
  (jsTest re s 0).1

/-- Number of matches `String.match` with a `g` regex finds (used for the
link count of `getSpamScore`). -/
def countFrom (re : RE) (s : List Char) : Nat → Nat → Nat
  | 0, _ => 0
  | fuel + 1, pos =>
    match findFrom re s pos with
    | none => 0
    | some (b, e) => 1 + countFrom re s fuel (if b < e then e else b + 1)

def countMatches (re : RE) (s : List Char) : Nat :=
  countFrom re s (s.length + 1) 0

/-- `String.replace` with a `g` regex and the replacer
`match => '*'.repeat(match.length)` of `filterContent`. -/
def replGo (re : RE) (s : List Char) : Nat → Nat → List Char
  | 0, pos => s.drop pos
  | fuel + 1, pos =>
    match findFrom re s pos with
    | none => s.drop pos
    | some (b, e) =>
      if b < e then
        ((s.drop pos).take (b - pos)) ++ List.replicate (e - b) (Char.ofNat 42)
          ++ replGo re s fuel e
      else
        ((s.drop pos).take (b - pos)) ++ (s.drop b).take 1
          ++ replGo re s fuel (b + 1)

def replStars (re : RE) (s : List Char) : List Char :=
  replGo re s (s.length + 1) 0

/- ===== Pattern constructors (all source regexes carry the `i` flag) ===== -/

/-- A literal character under the `i` flag. -/
def chr (c : Char) : RE := .pred (fun x => x.toLower == c)

/-- A character class `[…]` under the `i` flag (members given lower-case). -/
def cls (cs : List Char) : RE := .pred (fun x => cs.contains x.toLower)

def wch : RE := .pred isWordChar
def sch : RE := .pred isJsSpace
def nsch : RE := .pred (fun c => !(isJsSpace c))

def seq (l : List RE) : RE := l.foldr .cat .eps
def plus (a : RE) : RE := .cat a (.star a)
def opt (a : RE) : RE := .alt a .eps
def lit (s : String) : RE := seq (s.data.map chr)

/-- `https?:\/\/` -/
def reUrl : RE := seq [lit "http", opt (chr 's'), lit "://"]

/-- `(https?:\/\/[^\s]+)` -/
def reUrlGroup : RE := seq [reUrl, plus nsch]

/-- `profanePatterns` of profanityFilter.ts, in source order. -/
def profanePatterns : List RE :=
  [ seq [.wb, plus (chr 'f'), plus (chr 'u'), plus (chr 'c'), plus (chr 'k'), .star wch],
    seq [.wb, plus (chr 's'), plus (chr 'h'), plus (cls ['i', '1']), plus (chr 't'), .star wch],
    seq [.wb, plus (chr 'b'), plus (cls ['i', '1']), plus (chr 't'), plus (chr 'c'), plus (chr 'h'), .star wch],
    seq [.wb, plus (chr 'a'), plus (chr 's'), plus (chr 's'),
      opt (seq [plus (chr 'h'), plus (chr 'o'), plus (chr 'l'), plus (chr 'e')])],
    seq [.wb, plus (chr 'd'), plus (cls ['i', '1']), plus (chr 'c'), plus (chr 'k'), .star wch],
    seq [.wb, plus (chr 'c'), plus (chr 'u'), plus (chr 'n'), plus (chr 't'), .star wch],
    seq [.wb, plus (chr 'p'), plus (cls ['i', '1']), plus (chr 's'), plus (chr 's'), .star wch],
    seq [.wb, plus (chr 'd'), plus (chr 'a'), plus (chr 'm'), plus (chr 'n'), .star wch],
    seq [.wb, plus (chr 'h'), plus (chr 'e'), plus (chr 'l'), plus (chr 'l'), .wb],
    seq [.wb, plus (chr 'c'), plus (chr 'r'), plus (chr 'a'), plus (chr 'p'), .star wch],
    seq [.wb, plus (chr 'b'), plus (chr 'a'), plus (chr 's'), plus (chr 't'),
      plus (chr 'a'), plus (chr 'r'), plus (chr 'd'), .star wch],
    seq [.wb, plus (chr 'w'), plus (chr 'h'), plus (chr 'o'), plus (chr 'r'), plus (chr 'e'), .star wch],
    seq [.wb, plus (chr 's'), plus (chr 'l'), plus (chr 'u'), plus (chr 't'), .star wch],
    seq [.wb, plus (chr 'n'), plus (cls ['i', '1']), plus (chr 'g'),
      .alt (seq [plus (chr 'g'), plus (cls ['a', 'e', '3']), opt (chr 'r')])
           (seq [plus (chr 'a'), opt (chr 'h')]),
      .star wch],
    seq [.wb, plus (chr 'f'), plus (chr 'a'), plus (chr 'g'),
      opt (seq [plus (chr 'g'), plus (cls ['o', '0']), plus (chr 't')]), .star wch],
    seq [.wb, plus (chr 'r'), plus (chr 'e'), plus (chr 't'), plus (chr 'a'),
      plus (chr 'r'), plus (chr 'd'), .star wch],
    seq [.wb, cls ['s', '$'], chr 'h', cls ['i', '1', '!'], chr 't', .star wch],
    seq [.wb, cls ['a', '@'], cls ['$', 's'], cls ['s', '$'], .star wch],
    seq [.wb, chr 'f', chr 'u', chr 'c', chr 'k', .star wch],
    seq [.wb, plus (chr 'k'), plus (cls ['i', '1']), plus (chr 'l'), plus (chr 'l'), .star sch,
      .alt (lit "you") (.alt (lit "yourself") (.alt (lit "u") (lit "urself")))],
    seq [.wb, opt (seq [lit "go", .star sch]), plus (chr 'd'), plus (cls ['i', '1']),
      plus (chr 'e'), .wb],
    seq [.wb, lit "suicide", .wb],
    seq [.wb, lit "kill", .star sch, lit "myself"],
    seq [.wb, plus (chr 'p'), plus (cls ['o', '0']), plus (chr 'r'), plus (chr 'n'), .star wch],
    seq [.wb, plus (chr 's'), plus (chr 'e'), plus (chr 'x'), .star (chr 'y'), .wb],
    seq [.wb, plus (chr 'n'), plus (chr 'u'), plus (chr 'd'), plus (chr 'e'), opt (chr 's'), .wb],
    seq [.wb, .alt (lit "buy") (.alt (lit "click") (.alt (lit "subscribe") (lit "follow"))),
      .star sch, .alt (lit "now") (.alt (lit "here") (lit "this"))],
    seq [reUrlGroup, reUrlGroup, reUrlGroup, .star reUrlGroup],
    .chrun 5 true ]

/-- `warningPatterns` of profanityFilter.ts, in source order. -/
def warningPatterns : List RE :=
  [ seq [.wb, lit "idiot", .star wch],
    seq [.wb, lit "stupid", .star wch],
    seq [.wb, lit "dumb", .star wch],
    seq [.wb, lit "ugly", .star wch],
    seq [.wb, lit "loser", .star wch],
    seq [.wb, lit "hate", .star sch, .alt (lit "you") (lit "u"), .wb] ]

/- ===== Moderation functions (profanityFilter.ts) ===== -/

inductive Severity where
  | clean
  | warning
  | blocked
  deriving DecidableEq, Repr

/-- The `FilterResult` interface (the optional `filteredContent` field is
never assigned by the source, so it is omitted). -/
structure FilterResult where
  isClean : Bool
  flagged : Bool
  reason : Option String := none
  severity : Severity
  deriving DecidableEq, Repr

/-- Run `pattern.test(content)` over a pattern list with its `lastIndex`
vector, stopping at the first success; tested patterns have their
`lastIndex` updated, untested ones keep theirs. -/
def runTests : List RE → List Nat → List Char → Bool × List Nat
  | [], lis, _ => (false, lis)
  | _ :: _, [], _ => (false, [])
  | re :: rs, li :: lis, s =>
    let r := jsTest re s li
    if r.1 then (true, r.2 :: lis)
    else
      let rest := runTests rs lis s
      (rest.1, r.2 :: rest.2)

/-- `checkProfanity(content)`.  Because the source patterns are
module-level `g`-flag regexes, the function reads and writes their
`lastIndex` registers; the model threads them explicitly as `pLI`/`wLI`. -/
def checkProfanity (pLI wLI : List Nat) (content : List Char) :
    FilterResult × List Nat × List Nat :=
  let pr := runTests profanePatterns pLI content
  if pr.1 then
    ({ isClean := false, flagged := true, reason := some "Contains prohibited content",
       severity := .blocked }, pr.2, wLI)
  else
    let wr := runTests warningPatterns wLI content
    if wr.1 then
      ({ isClean := true, flagged := true,
         reason := some "Contains potentially offensive content",
         severity := .warning }, pr.2, wr.2)
    else
      ({ isClean := true, flagged := false, severity := .clean }, pr.2, wr.2)

/-- `filterContent(content)`: mask every `profanePatterns` match with `*`s.
`String.replace` resets `lastIndex` to `0` before and after matching, so
the result does not depend on the registers. -/
def filterContent (content : List Char) : List Char :=
  profanePatterns.foldl (fun acc re => replStars re acc) content

/-- `/[!?]{3,}/` -/
def rePunct : RE := seq [cls ['!', '?'], cls ['!', '?'], cls ['!', '?'], .star (cls ['!', '?'])]

/-- `/\b(free|win|winner|prize|claim|limited|urgent)\b/gi` -/
def reSpamWords : RE :=
  seq [.wb,
    .alt (lit "free") (.alt (lit "win") (.alt (lit "winner") (.alt (lit "prize")
      (.alt (lit "claim") (.alt (lit "limited") (lit "urgent")))))),
    .wb]

/-- `getSpamScore(content)`.  The floating comparison
`capsCount / length > 0.7` agrees with the rational comparison
`10 * capsCount > 7 * length` for every length ≤ 2000. -/
def getSpamScore (content : List Char) : Nat :=
  let caps := (content.filter (fun c => 65 ≤ c.toNat && c.toNat ≤ 90)).length
  let s1 := if 10 * caps > 7 * content.length && content.length > 10 then 2 else 0
  let s2 := if test0 (.chrun 4 false) content then 2 else 0
  let s3 := if test0 rePunct content then 1 else 0
  let linkCount := countMatches reUrl content
  let s4 := if linkCount > 2 then linkCount else 0
  let s5 := if test0 reSpamWords content then 1 else 0
  s1 + s2 + s3 + s4 + s5

/-- `isSpam(content)` -/
def isSpam (content : List Char) : Bool :=
  3 ≤ getSpamScore content

/- ===== sanitizeMessage (routes.ts) ===== -/

/-- `String.replace(/c/g, r)` for a single-character pattern. -/
def escAll (t : Char) (r : List Char) (s : List Char) : List Char :=
  s.flatMap (fun c => if c = t then r else [c])

/-- `String.trim()`: strip JS whitespace from both ends. -/
def jsTrim (s : List Char) : List Char :=
  ((s.dropWhile isJsSpace).reverse.dropWhile isJsSpace).reverse

def apos : Char := Char.ofNat 39

def quot : Char := Char.ofNat 34

/-- `sanitizeMessage` of routes.ts: HTML-escape `<`, `>`, `"`, `'` (in that
order), trim, then `slice(0, 2000)`. -/
def sanitizeMessage (s : List Char) : List Char :=
  (jsTrim (escAll apos "&#x27;".data
    (escAll quot "&quot;".data
      (escAll '>' "&gt;".data
        (escAll '<' "&lt;".data s))))).take 2000

/-- `messageSchema.parse(data)` of shared/schema.ts:
`z.object({ content: z.string().min(1).max(2000) })`.  Returns the parsed
content or `none` when parsing throws. -/
def messageParse (content : Option (List Char)) : Option (List Char) :=
  match content with
  | none => none
  | some s => if 1 ≤ s.length ∧ s.length ≤ 2000 then some s else none

/- ===== Rate limiting (storage.ts, rate_limits table) ===== -/

/-- One row of the `rate_limits` table (times in Unix seconds). -/
structure RateRec where
  ip : String
  action : String
  count : Nat
  windowStart : Nat
  deriving DecidableEq, Repr

/-- The `where` clause shared by `checkRateLimit` and `incrementRateLimit`:
same ip, same action, `windowStart ≥ cutoff`. -/
def rateMatch (r : RateRec) (ip action : String) (cutoff : Nat) : Bool :=
  r.ip == ip && r.action == action && cutoff ≤ r.windowStart

/-- `DatabaseStorage.checkRateLimit`: read the first in-window row; absent
row means allowed, otherwise `count < limit`. -/
def checkRateLimit (tbl : List RateRec) (ip action : String)
    (limit windowSeconds now : Nat) : Bool :=
  match tbl.find? (fun r => rateMatch r ip action (now - windowSeconds)) with
  | none => true
  | some r => r.count < limit

/-- `DatabaseStorage.incrementRateLimit`: bump every in-window row for the
key (the window used here is the hard-coded 60 s), otherwise insert a fresh
row with `count = 1` and `windowStart = now`. -/
def incrementRateLimit (tbl : List RateRec) (ip action : String) (now : Nat) :
    List RateRec :=
  if tbl.any (fun r => rateMatch r ip action (now - 60)) then
    tbl.map (fun r => if rateMatch r ip action (now - 60) then
      { r with count := r.count + 1 } else r)
  else
    tbl ++ [{ ip := ip, action := action, count := 1, windowStart := now }]

/- ===== Server state (routes.ts + in-memory part of storage.ts) ===== -/

/-- The `ConnectedUser` record of routes.ts (the socket handle is not
modelled; delivery is expressed through `Effect.frame`). -/
structure ConnUser where
  id : String
  ip : String
  partnerId : Option String := none
  roomId : Option String := none
  deriving DecidableEq, Repr

/-- A `WaitingUser` of shared/schema.ts (`socketId` is only ever written,
never read, and is omitted). -/
structure WaitingUserR where
  id : String
  ip : String
  joinedAt : Nat
  deriving DecidableEq, Repr

/-- An in-memory `ChatSession` of shared/schema.ts. -/
structure ChatSessionR where
  id : String
  user1Id : String
  user2Id : String
  user1Ip : String
  user2Ip : String
  startedAt : Nat
  messageCount : Nat
  lastActivity : Nat
  deriving DecidableEq, Repr

/-- `ChatMessage` as built by the SEND_MESSAGE handler
(`type` is always `'user'`, media fields absent). -/
structure ChatMessageR where
  id : String
  content : List Char
  senderId : String
  timestamp : Nat
  deriving DecidableEq, Repr

inductive Payload where
  | empty : Payload
  | message (m : ChatMessageR) : Payload
  | text (msg : String) : Payload
  | room (roomId : String) : Payload
  deriving DecidableEq, Repr

/-- Observable side effects, in the order the handler performs them. -/
inductive Effect where
  | frame (dst : String) (event : String) (payload : Payload) : Effect
  | rlIncrement (ip action : String) : Effect
  | logRow (sessionId senderIp : String) (content : List Char)
      (flagged : Bool) (flagReason : Option String) : Effect
  | incrementMessageCount (roomId : String) : Effect
  | incrementTodayMessages : Effect
  | addActiveChat (roomId : String) : Effect
  | removeActiveChat (roomId : String) : Effect
  | closeConn (id : String) : Effect
  deriving DecidableEq, Repr

/-- Inbound frame `data`, as the dispatcher's cases consume it. -/
inductive FrameData where
  | empty : FrameData
  | content (s : List Char) : FrameData
  | media (url kind : String) (name : Option String) (size : Option Nat) : FrameData
  deriving DecidableEq, Repr

/-- Projection used by `messageSchema.parse` (a frame without a string
`content` field fails the schema). -/
def FrameData.contentField : FrameData → Option (List Char)
  | .content s => some s
  | _ => none

/-- Whole-server state: `connectedUsers` map, the storage maps, the
`rate_limits` table and the `lastIndex` registers of the module-level
regexes.  `uuidCtr` models the fresh-name supply of `randomUUID()`. -/
structure ServerState where
  connected : String → Option ConnUser
  waiting : List (String × WaitingUserR)
  activeChats : String → Option ChatSessionR
  rateTable : List RateRec
  profaneLI : List Nat
  warnLI : List Nat
  todayMessages : Nat
  uuidCtr : Nat
  bannedIps : List String

def fset {β : Type} (m : String → Option β) (k : String) (v : β) :
    String → Option β :=
  fun x => if x = k then some v else m x

def fdel {β : Type} (m : String → Option β) (k : String) :
    String → Option β :=
  fun x => if x = k then none else m x

/-- JS `Map.set`: replace in place if the key exists, else append. -/
def mapSet {β : Type} : List (String × β) → String → β → List (String × β)
  | [], k, v => [(k, v)]
  | (k0, v0) :: t, k, v =>
    if k0 = k then (k, v) :: t else (k0, v0) :: mapSet t k v

/-- JS `Map.delete`. -/
def mapDel {β : Type} (l : List (String × β)) (k : String) : List (String × β) :=
  l.filter (fun p => p.1 ≠ k)

def mapValues {β : Type} (l : List (String × β)) : List β := l.map (·.2)

/-- The comparator `(a, b) => a.joinedAt - b.joinedAt` of
`getWaitingUsers`. -/
def joinedLe (a b : WaitingUserR) : Prop := a.joinedAt ≤ b.joinedAt

instance : DecidableRel joinedLe := fun a b => Nat.decLe a.joinedAt b.joinedAt

instance : IsTotal WaitingUserR joinedLe :=
  ⟨fun a b => Nat.le_total a.joinedAt b.joinedAt⟩

instance : IsTrans WaitingUserR joinedLe :=
  ⟨fun _ _ _ hab hbc => Nat.le_trans hab hbc⟩

/-- `DatabaseStorage.getWaitingUsers`: the map's values sorted by
`joinedAt`.  JS `Array.sort` is stable, so any stable sort — here
insertion sort — computes the same list. -/
def getWaitingUsers (st : ServerState) : List WaitingUserR :=
  List.insertionSort joinedLe (mapValues st.waiting)

def uuidStr (n : Nat) : String :=
  "uuid-" ++ Nat.repr n

/-- `sendToUser`: deliver one frame if the recipient is still registered. -/
def sendToUser (st : ServerState) (uid : String) (event : String)
    (payload : Payload) : List Effect :=
  match st.connected uid with
  | some _ => [.frame uid event payload]
  | none => []

/- ===== matchUsers (routes.ts) ===== -/

/-- The `while (waitingUsers.length >= 2)` loop of `matchUsers`.  The local
snapshot array is consumed two entries per iteration; the storage map
`waiting` is only touched through `removeWaitingUser` (success) and
`addWaitingUser` (survivor re-added on discard).  `now` is `Date.now()`. -/
def mmLoop (now : Nat) : List WaitingUserR → ServerState → List Effect →
    ServerState × List Effect
  | u1 :: u2 :: rest, st, effs =>
    match st.connected u1.id, st.connected u2.id with
    | some c1, some c2 =>
      let wq := mapDel (mapDel st.waiting u1.id) u2.id
      let roomId := uuidStr st.uuidCtr
      let conn := fset (fset st.connected u1.id
        { c1 with partnerId := some c2.id, roomId := some roomId })
        u2.id { c2 with partnerId := some c1.id, roomId := some roomId }
      let room : ChatSessionR :=
        { id := roomId, user1Id := c1.id, user2Id := c2.id,
          user1Ip := c1.ip, user2Ip := c2.ip, startedAt := now,
          messageCount := 0, lastActivity := now }
      let st1 : ServerState :=
        { st with waiting := wq, connected := conn,
                  activeChats := fset st.activeChats roomId room,
                  uuidCtr := st.uuidCtr + 1 }
      let effs1 := effs ++ [.addActiveChat roomId]
        ++ sendToUser st1 c1.id "partner_found" (.room roomId)
        ++ sendToUser st1 c2.id "partner_found" (.room roomId)
      mmLoop now rest st1 effs1
    | none, some _ =>
      mmLoop now rest { st with waiting := mapSet st.waiting u2.id u2 } effs
    | some _, none =>
      mmLoop now rest { st with waiting := mapSet st.waiting u1.id u1 } effs
    | none, none =>
      mmLoop now rest st effs
  | _, st, effs => (st, effs)

/-- `matchUsers()`: take the sorted snapshot of the waiting queue and run
the pairing loop over it. -/
def matchUsers (st : ServerState) (now : Nat) : ServerState × List Effect :=
  mmLoop now (getWaitingUsers st) st []

/- ===== The SEND_MESSAGE pipeline (routes.ts, case SEND_MESSAGE) ===== -/

/-- Number of profane patterns (for the `lastIndex` reset performed by
`String.replace` inside `filterContent`). -/
def nProfane : Nat := 29

/-- The body of `case socketEvents.SEND_MESSAGE`, for the already-looked-up
`ConnectedUser` `u` of session `uid`.  Effects are listed in execution
order.  `now` is `Date.now()`. -/
def sendMessagePath (st : ServerState) (uid : String) (u : ConnUser)
    (data : FrameData) (now : Nat) : ServerState × List Effect :=
  match u.partnerId with
  | none => (st, sendToUser st uid "error" (.text "Not connected to a partner"))
  | some partner =>
    if checkRateLimit st.rateTable u.ip "message" 20 60 now = false then
      (st, sendToUser st uid "rate_limited"
        (.text "Slow down! You are sending messages too fast."))
    else
      let st1 : ServerState :=
        { st with rateTable := incrementRateLimit st.rateTable u.ip "message" now }
      let e0 : List Effect := [.rlIncrement u.ip "message"]
      match messageParse data.contentField with
      | none => (st1, e0 ++ sendToUser st1 uid "error" (.text "Invalid message"))
      | some content =>
        let sanitized := sanitizeMessage content
        if isSpam sanitized then
          let effs := e0 ++ sendToUser st1 uid "message_flagged"
            (.text "Your message appears to be spam and was not sent.")
          match u.roomId with
          | some r => (st1, effs ++ [.logRow r u.ip sanitized true (some "spam")])
          | none => (st1, effs)
        else
          let res := checkProfanity st1.profaneLI st1.warnLI sanitized
          let pr := res.1
          let st2 : ServerState := { st1 with profaneLI := res.2.1, warnLI := res.2.2 }
          if pr.severity = .blocked then
            let effs := e0 ++ sendToUser st2 uid "message_flagged"
              (.text "Your message contains prohibited content and was not sent.")
            match u.roomId with
            | some r => (st2, effs ++ [.logRow r u.ip sanitized true (some "profanity")])
            | none => (st2, effs)
          else
            let content2 := if pr.severity = .warning then filterContent sanitized
              else sanitized
            let st3 : ServerState := if pr.severity = .warning then
              { st2 with profaneLI := List.replicate nProfane 0 } else st2
            let m : ChatMessageR :=
              { id := uuidStr st3.uuidCtr, content := content2,
                senderId := uid, timestamp := now }
            let st4 : ServerState := { st3 with uuidCtr := st3.uuidCtr + 1 }
            let relay := sendToUser st4 partner "message_received" (.message m)
            match u.roomId with
            | some r =>
              let ac := match st4.activeChats r with
                | some chat => fset st4.activeChats r
                    { chat with messageCount := chat.messageCount + 1,
                                lastActivity := now }
                | none => st4.activeChats
              ({ st4 with activeChats := ac,
                          todayMessages := st4.todayMessages + 1 },
               e0 ++ relay ++ [.incrementMessageCount r, .incrementTodayMessages,
                 .logRow r u.ip content2 pr.flagged pr.reason])
            | none => (st4, e0 ++ relay)

/- ===== Frame dispatch (routes.ts, ws.on('message') switch) ===== -/

/-- The dispatcher switch.  A frame whose `type` matches no case falls
through the switch silently (there is no `default` branch). -/
def handleFrame (st : ServerState) (uid : String) (ty : String)
    (data : FrameData) (now : Nat) : ServerState × List Effect :=
  match st.connected uid with
  | none => (st, [])
  | some u =>
    if ty = "join_queue" then
      if u.partnerId.isSome then
        (st, sendToUser st uid "error" (.text "Already in a chat"))
      else
        let w : WaitingUserR := { id := uid, ip := u.ip, joinedAt := now }
        let st1 : ServerState := { st with waiting := mapSet st.waiting uid w }
        let effs1 := sendToUser st1 uid "queue_joined" .empty
        let r := matchUsers st1 now
        (r.1, effs1 ++ r.2)
    else if ty = "leave_queue" then
      ({ st with waiting := mapDel st.waiting uid }, [])
    else if ty = "send_message" then
      sendMessagePath st uid u data now
    else if ty = "typing" then
      (st, match u.partnerId with
        | some p => sendToUser st p "partner_typing" .empty
        | none => [])
    else if ty = "stop_typing" then
      (st, match u.partnerId with
        | some p => sendToUser st p "partner_stopped_typing" .empty
        | none => [])
    else if ty = "disconnect_chat" then
      let effs1 := match u.partnerId with
        | some p => sendToUser st p "partner_disconnected" .empty
        | none => []
      let conn1 := match u.partnerId with
        | some p =>
          match st.connected p with
          | some pu => fset st.connected p { pu with partnerId := none, roomId := none }
          | none => st.connected
        | none => st.connected
      let acPair : (String → Option ChatSessionR) × List Effect :=
        match u.roomId with
        | some r => (fdel st.activeChats r, [.removeActiveChat r])
        | none => (st.activeChats, [])
      let conn2 := fset conn1 uid { u with partnerId := none, roomId := none }
      ({ st with connected := conn2, activeChats := acPair.1 },
       effs1 ++ acPair.2)
    else
      (st, [])

/- ===== Connection admission and close (routes.ts) ===== -/

/-- `wss.on('connection')`: ban gate, connection rate limit, registration.
`randomUUID()` freshness is modelled by leaving the registry unchanged in
the (impossible) case the identifier is already taken. -/
def connectStep (st : ServerState) (uid ip : String) (now : Nat) :
    ServerState × List Effect :=
  if st.bannedIps.contains ip then
    (st, [.frame uid "banned" .empty, .closeConn uid])
  else if checkRateLimit st.rateTable ip "connection" 5 60 now = false then
    (st, [.frame uid "rate_limited"
      (.text "Too many connection attempts. Please wait and try again."),
      .closeConn uid])
  else
    let st1 : ServerState :=
      { st with rateTable := incrementRateLimit st.rateTable ip "connection" now }
    if (st.connected uid).isSome then (st1, [.rlIncrement ip "connection"])
    else
      ({ st1 with connected := fset st.connected uid { id := uid, ip := ip } },
       [.rlIncrement ip "connection"])

/-- `handleDisconnect(userId)` (also run from `ws.on('close')`). -/
def handleDisconnect (st : ServerState) (uid : String) :
    ServerState × List Effect :=
  match st.connected uid with
  | none => (st, [])
  | some u =>
    let effs1 := match u.partnerId with
      | some p => sendToUser st p "partner_disconnected" .empty
      | none => []
    let conn1 := match u.partnerId with
      | some p =>
        match st.connected p with
        | some pu => fset st.connected p { pu with partnerId := none, roomId := none }
        | none => st.connected
      | none => st.connected
    let acPair : (String → Option ChatSessionR) × List Effect :=
      match u.roomId with
      | some r => (fdel st.activeChats r, [.removeActiveChat r])
      | none => (st.activeChats, [])
    ({ st with connected := fdel conn1 uid, activeChats := acPair.1,
               waiting := mapDel st.waiting uid },
     effs1 ++ acPair.2)

/- ===== Whole-system step relation ===== -/

/-- External events driving the server (sequential interleaving: each
handler runs to completion, matching the single-threaded event loop). -/
inductive Op where
  | connect (id ip : String) (now : Nat) : Op
  | frame (id ty : String) (data : FrameData) (now : Nat) : Op
  | close (id : String) : Op

def stepE (st : ServerState) : Op → ServerState × List Effect
  | .connect id ip now => connectStep st id ip now
  | .frame id ty data now => handleFrame st id ty data now
  | .close id => handleDisconnect st id

def step (st : ServerState) (op : Op) : ServerState := (stepE st op).1

/-- Boot state: empty registry and queue, fresh regex registers
(`lastIndex = 0`), a given `banned_ips` table. -/
def initState (bans : List String) : ServerState :=
  { connected := fun _ => none, waiting := [], activeChats := fun _ => none,
    rateTable := [], profaneLI := List.replicate nProfane 0,
    warnLI := List.replicate 6 0, todayMessages := 0, uuidCtr := 0,
    bannedIps := bans }

def run (bans : List String) (ops : List Op) : ServerState :=
  ops.foldl step (initState bans)

/- ===== Concrete configurations used by counterexamples and witnesses ===== -/

def userA : ConnUser :=
  { id := "a", ip := "1.1.1.1", partnerId := some "b", roomId := some "r" }

def userB : ConnUser :=
  { id := "b", ip := "2.2.2.2", partnerId := some "a", roomId := some "r" }

/-- Registry with the two paired sessions `a ↔ b` in room `r`. -/
def pairedConn : String → Option ConnUser :=
  fset (fset (fun _ => none) "a" userA) "b" userB

/-- A reachable-shaped state with `a` and `b` paired in room `r`, an empty
rate table and fresh regex registers. -/
def pairedState : ServerState :=
  { connected := pairedConn, waiting := [], activeChats := fun _ => none,
    rateTable := [], profaneLI := List.replicate nProfane 0,
    warnLI := List.replicate 6 0, todayMessages := 0, uuidCtr := 0,
    bannedIps := [] }

/-- A single idle (unpaired) session `a`. -/
def idleState : ServerState :=
  { connected := fset (fun _ => none) "a" { id := "a", ip := "1.1.1.1" },
    waiting := [], activeChats := fun _ => none, rateTable := [],
    profaneLI := List.replicate nProfane 0, warnLI := List.replicate 6 0,
    todayMessages := 0, uuidCtr := 0, bannedIps := [] }

/-- Queue `u1 < u2 < u3 < u4` by `joinedAt`, where `u1` has already
disconnected (it is absent from the registry) and `u2`, `u3`, `u4` are
live, idle and waiting. -/
def fifoState : ServerState :=
  { connected := fset (fset (fset (fun _ => none)
      "u2" { id := "u2", ip := "2.2.2.2" })
      "u3" { id := "u3", ip := "3.3.3.3" })
      "u4" { id := "u4", ip := "4.4.4.4" },
    waiting := [("u1", { id := "u1", ip := "1.1.1.1", joinedAt := 1 }),
                ("u2", { id := "u2", ip := "2.2.2.2", joinedAt := 2 }),
                ("u3", { id := "u3", ip := "3.3.3.3", joinedAt := 3 }),
                ("u4", { id := "u4", ip := "4.4.4.4", joinedAt := 4 })],
    activeChats := fun _ => none, rateTable := [],
    profaneLI := List.replicate nProfane 0, warnLI := List.replicate 6 0,
    todayMessages := 0, uuidCtr := 0, bannedIps := [] }

/-- A single idle session `w` that is already in the waiting queue. -/
def rejoinState : ServerState :=
  { connected := fset (fun _ => none) "w" { id := "w", ip := "9.9.9.9" },
    waiting := [("w", { id := "w", ip := "9.9.9.9", joinedAt := 5 })],
    activeChats := fun _ => none, rateTable := [],
    profaneLI := List.replicate nProfane 0, warnLI := List.replicate 6 0,
    todayMessages := 0, uuidCtr := 0, bannedIps := [] }

/- ===== C2: SEND_MEDIA is not handled by the server ===== -/

/-- C2.  The dispatcher switch of routes.ts has no `SEND_MEDIA` case and no
`default`, so a `send_media` frame — whatever its data and whatever the
session's state, Paired included — is silently discarded: no validation of
`kind`, no `MEDIA_RECEIVED` to the partner, no log, no error, and no state
change.  This contradicts the claimed validate-and-forward behaviour
(schema.ts declares both `send_media` and `media_received`, and the client
emits `send_media` after an upload, so the missing case is a server-side
defect). -/
theorem send_media_is_dropped (st : ServerState) (uid : String)
    (data : FrameData) (now : Nat) :
    stepE st (Op.frame uid "send_media" data now) = (st, []) := by
  cases h : st.connected uid <;>
    simp [stepE, handleFrame, h]

/- ===== C5: checkProfanity is not a pure function of its input ===== -/

/-- C5.  `checkProfanity` reads and advances the `lastIndex` registers of
the module-level `g`-flag regexes, so it is not deterministic: on the very
first call `checkProfanity("damn")` returns severity `blocked` (and leaves
`lastIndex = 4` on the `\bd+a+m+n+\w*` pattern), while the immediately
following call `checkProfanity("damn")` returns severity `clean`, because
the pattern now searches only from offset 4. -/
theorem checkProfanity_not_deterministic :
    (checkProfanity (List.replicate nProfane 0) (List.replicate 6 0)
      "damn".data).1.severity = Severity.blocked ∧
    ((checkProfanity (List.replicate nProfane 0) (List.replicate 6 0)
        "damn".data).2.1.get? 7 = some 4) ∧
    (checkProfanity
      (checkProfanity (List.replicate nProfane 0) (List.replicate 6 0)
        "damn".data).2.1
      (checkProfanity (List.replicate nProfane 0) (List.replicate 6 0)
        "damn".data).2.2
      "damn".data).1.severity = Severity.clean := by
  decide

/- ===== C8: unknown / disallowed frames ===== -/

/-- C8 counterexample.  A frame of unknown type `"bogus"` reaching an idle
session produces no `ERROR` frame at all (the switch has no `default`
case): the result is the unchanged state together with an empty effect
list.  The claim demands an `ERROR{message}` frame to the sender. -/
theorem unknown_frame_silently_ignored :
    stepE idleState (Op.frame "a" "bogus" FrameData.empty 5) = (idleState, []) := by
  rfl

/-- C8 amended.  Unknown frame types, and `TYPING` / `STOP_TYPING` /
`DISCONNECT_CHAT` outside the Paired state, are silently ignored — no
frame is emitted at all, the state is unchanged and the connection stays
open; only `JOIN_QUEUE` while paired and `SEND_MESSAGE` while unpaired
answer with an `ERROR` frame (likewise without mutating state). -/
theorem dispatch_disallowed_frames :
    (∀ (st : ServerState) (uid ty : String) (data : FrameData) (now : Nat),
      ty ∉ (["join_queue", "leave_queue", "send_message", "typing",
        "stop_typing", "disconnect_chat"] : List String) →
      stepE st (Op.frame uid ty data now) = (st, [])) ∧
    (∀ (st : ServerState) (uid : String) (u : ConnUser) (data : FrameData) (now : Nat),
      st.connected uid = some u → u.partnerId = none →
      handleFrame st uid "typing" data now = (st, []) ∧
      handleFrame st uid "stop_typing" data now = (st, [])) ∧
    (∀ (st : ServerState) (uid : String) (u : ConnUser) (data : FrameData) (now : Nat),
      st.connected uid = some u → u.partnerId = none → u.roomId = none →
      handleFrame st uid "disconnect_chat" data now = (st, [])) ∧
    (∀ (st : ServerState) (uid : String) (u : ConnUser) (data : FrameData) (now : Nat),
      st.connected uid = some u → u.partnerId.isSome →
      handleFrame st uid "join_queue" data now =
        (st, [Effect.frame uid "error" (Payload.text "Already in a chat")])) ∧
    (∀ (st : ServerState) (uid : String) (u : ConnUser) (data : FrameData) (now : Nat),
      st.connected uid = some u → u.partnerId = none →
      handleFrame st uid "send_message" data now =
        (st, [Effect.frame uid "error" (Payload.text "Not connected to a partner")])) := by
  refine ⟨?_, ?_, ?_, ?_, ?_⟩
  · intro st uid ty data now hty
    simp only [List.mem_cons, List.mem_singleton, not_or] at hty
    obtain ⟨h1, h2, h3, h4, h5, h6, -⟩ := hty
    cases hc : st.connected uid <;>
      simp [stepE, handleFrame, hc, h1, h2, h3, h4, h5, h6]
  · intro st uid u data now hc hp
    constructor <;> simp [handleFrame, hc, hp]
  · intro st uid u data now hc hp hr
    have hu : { u with partnerId := none, roomId := none } = u := by
      cases u; simp_all
    have hm : fset st.connected uid { u with partnerId := none, roomId := none } =
        st.connected := by
      rw [hu]; funext x
      by_cases hx : x = uid <;> simp [fset, hx, hc.symm]
    cases st
    simp_all [handleFrame, hp, hr, hm]
  · intro st uid u data now hc hp
    simp [handleFrame, hc, hp, sendToUser]
  · intro st uid u data now hc hp
    simp [handleFrame, hc, hp, sendMessagePath, sendToUser]

/-- C8 amended, witness: a `SEND_MESSAGE` from the unpaired session of
`idleState` is answered with exactly one `ERROR` frame and no state
change. -/
theorem dispatch_disallowed_frames_witness :
    handleFrame idleState "a" "send_message" FrameData.empty 7 =
      (idleState, [Effect.frame "a" "error"
        (Payload.text "Not connected to a partner")]) :=
  dispatch_disallowed_frames.2.2.2.2 idleState "a"
    { id := "a", ip := "1.1.1.1" } FrameData.empty 7 (by decide) (by decide)

/- ===== C9: rate-limit monotonicity ===== -/

/-- `N` consecutive `incrementRateLimit` calls at the given times. -/
def incTimes (tbl : List RateRec) (ip action : String) : List Nat → List RateRec
  | [] => tbl
  | t :: ts => incTimes (incrementRateLimit tbl ip action t) ip action ts

theorem incrementRateLimit_nil (ip action : String) (t : Nat) :
    incrementRateLimit [] ip action t =
      [{ ip := ip, action := action, count := 1, windowStart := t }] := by
  simp [incrementRateLimit]

theorem incrementRateLimit_single (ip action : String) (n t0 t : Nat)
    (h : t ≤ t0 + 60) :
    incrementRateLimit
        [{ ip := ip, action := action, count := n, windowStart := t0 }]
        ip action t =
      [{ ip := ip, action := action, count := n + 1, windowStart := t0 }] := by
  have hcut : t - 60 ≤ t0 := by omega
  simp [incrementRateLimit, rateMatch, hcut, h]

theorem incTimes_single (ip action : String) (t0 : Nat) :
    ∀ (ts : List Nat) (n : Nat), (∀ t ∈ ts, t ≤ t0 + 60) →
    incTimes [{ ip := ip, action := action, count := n, windowStart := t0 }]
        ip action ts =
      [{ ip := ip, action := action, count := n + ts.length, windowStart := t0 }]
  | [], n, _ => by simp [incTimes]
  | t :: ts, n, h => by
    rw [incTimes, incrementRateLimit_single ip action n t0 t (h t (by simp)),
      incTimes_single ip action t0 ts (n + 1) (fun x hx => h x (by simp [hx]))]
    simp; omega

/-- C9.  Starting from no record, after `N = ts.length + 1` increments all
inside the 60-second window anchored at the first increment time `t0`, a
`check` with limit `L` and window `W` performed at a time `tc` still inside
the window returns `false` exactly when `N + 1 > L`. -/
theorem rate_limit_monotonicity (ip action : String) (L W t0 tc : Nat)
    (ts : List Nat) (hts : ∀ t ∈ ts, t ≤ t0 + 60) (hc : tc ≤ t0 + W) :
    (checkRateLimit (incTimes [] ip action (t0 :: ts)) ip action L W tc = false)
      ↔ (ts.length + 1) + 1 > L := by
  have h0 : incTimes [] ip action (t0 :: ts) =
      [{ ip := ip, action := action, count := 1 + ts.length, windowStart := t0 }] := by
    rw [incTimes, incrementRateLimit_nil, incTimes_single ip action t0 ts 1 hts]
  have hcut : tc - W ≤ t0 := by omega
  rw [h0]
  simp [checkRateLimit, rateMatch, hcut, List.find?]
  omega

/-- C9 witness: limit 2, window 60 s, three increments at second 1000;
the fourth check is refused (`3 + 1 > 2`). -/
theorem rate_limit_monotonicity_witness :
    (checkRateLimit (incTimes [] "1.1.1.1" "message" (1000 :: [1000, 1000]))
        "1.1.1.1" "message" 2 60 1000 = false) ↔ (2 + 1) + 1 > 2 :=
  rate_limit_monotonicity "1.1.1.1" "message" 2 60 1000 1000 [1000, 1000]
    (by decide) (by decide)

/- ===== Association-map and sorting lemmas ===== -/

theorem mem_sendToUser {st : ServerState} {uid event : String} {p : Payload}
    {e : Effect} (h : e ∈ sendToUser st uid event p) :
    e = Effect.frame uid event p := by
  rcases hc : st.connected uid with - | u <;> simp_all [sendToUser, hc]

theorem mem_mapSet_self {β : Type} :
    ∀ (l : List (String × β)) (k : String) (v : β), (k, v) ∈ mapSet l k v
  | [], k, v => by simp [mapSet]
  | (k0, v0) :: t, k, v => by
    by_cases h : k0 = k <;> simp [mapSet, h, mem_mapSet_self t k v]

theorem mem_mapSet_weak {β : Type} :
    ∀ (l : List (String × β)) (k : String) (v : β) (p : String × β),
      p ∈ mapSet l k v → p = (k, v) ∨ p ∈ l
  | [], k, v, p, h => by simpa [mapSet] using h
  | (k0, v0) :: t, k, v, p, h => by
    by_cases hk : k0 = k
    · simp [mapSet, hk] at h
      rcases h with h | h
      · exact Or.inl (by simp [h])
      · exact Or.inr (by simp [h])
    · simp [mapSet, hk] at h
      rcases h with h | h
      · exact Or.inr (by simp [h])
      · rcases mem_mapSet_weak t k v p h with h2 | h2
        · exact Or.inl h2
        · exact Or.inr (by simp [h2])

theorem keys_mapSet_subset {β : Type} :
    ∀ (l : List (String × β)) (k : String) (v : β) (x : String),
      x ∈ (mapSet l k v).map Prod.fst → x = k ∨ x ∈ l.map Prod.fst
  | [], k, v, x, h => by simpa [mapSet] using h
  | (k0, v0) :: t, k, v, x, h => by
    by_cases hk : k0 = k
    · simp [mapSet, hk] at h
      rcases h with h | h
      · exact Or.inl h
      · exact Or.inr (by simp [h])
    · simp [mapSet, hk] at h
      rcases h with h | h
      · exact Or.inr (by simp [h])
      · rcases keys_mapSet_subset t k v x (by simpa using h) with h2 | h2
        · exact Or.inl h2
        · exact Or.inr (by simp [h2])

theorem mapSet_cons_eq {β : Type} (k : String) (v v0 : β) (t : List (String × β)) :
    mapSet ((k, v0) :: t) k v = (k, v) :: t := by
  simp [mapSet]

theorem mapSet_cons_ne {β : Type} {k0 k : String} (h : ¬ (k0 = k)) (v0 v : β)
    (t : List (String × β)) :
    mapSet ((k0, v0) :: t) k v = (k0, v0) :: mapSet t k v := by
  simp [mapSet, h]

theorem nodup_keys_mapSet {β : Type} :
    ∀ (l : List (String × β)) (k : String) (v : β),
      (l.map Prod.fst).Nodup → ((mapSet l k v).map Prod.fst).Nodup
  | [], k, v, _ => by simp [mapSet]
  | (k0, v0) :: t, k, v, h => by
    rw [List.map_cons, List.nodup_cons] at h
    by_cases hk : k0 = k
    · subst hk
      rw [mapSet_cons_eq, List.map_cons, List.nodup_cons]
      exact ⟨h.1, h.2⟩
    · rw [mapSet_cons_ne hk, List.map_cons, List.nodup_cons]
      refine ⟨fun hmem => ?_, nodup_keys_mapSet t k v h.2⟩
      rcases keys_mapSet_subset t k v k0 hmem with h2 | h2
      · exact hk h2
      · exact h.1 h2

theorem mem_mapSet_nodup {β : Type} :
    ∀ (l : List (String × β)) (k : String) (v : β) (p : String × β),
      (l.map Prod.fst).Nodup → p ∈ mapSet l k v →
      p = (k, v) ∨ (p ∈ l ∧ p.1 ≠ k)
  | [], k, v, p, _, h => by simpa [mapSet] using h
  | (k0, v0) :: t, k, v, p, hnd, h => by
    rw [List.map_cons, List.nodup_cons] at hnd
    by_cases hk : k0 = k
    · subst hk
      rw [mapSet_cons_eq, List.mem_cons] at h
      rcases h with h1 | h1
      · exact Or.inl h1
      · refine Or.inr ⟨List.mem_cons_of_mem _ h1, fun hpk => ?_⟩
        have hmem := List.mem_map_of_mem Prod.fst h1
        exact hnd.1 (hpk ▸ hmem)
    · rw [mapSet_cons_ne hk, List.mem_cons] at h
      rcases h with h1 | h1
      · refine Or.inr ⟨by rw [h1]; exact List.mem_cons_self _ _, ?_⟩
        rw [h1]
        exact hk
      · rcases mem_mapSet_nodup t k v p hnd.2 h1 with h2 | h2
        · exact Or.inl h2
        · exact Or.inr ⟨List.mem_cons_of_mem _ h2.1, h2.2⟩

/-- Number of queue entries stored under key `k`. -/
def countKey {β : Type} (l : List (String × β)) (k : String) : Nat :=
  (l.filter (fun p => p.1 = k)).length

theorem countKey_eq_zero {β : Type} :
    ∀ {l : List (String × β)} {k : String},
      k ∉ l.map Prod.fst → countKey l k = 0
  | [], _, _ => rfl
  | (k0, v0) :: t, k, h => by
    simp only [List.map_cons, List.mem_cons, not_or] at h
    have hne : ¬ (k0 = k) := fun he => h.1 he.symm
    have ih := countKey_eq_zero (l := t) (k := k) h.2
    simpa [countKey, List.filter_cons, hne] using ih

theorem countKey_mapSet {β : Type} :
    ∀ (l : List (String × β)) (k : String) (v : β),
      (l.map Prod.fst).Nodup → countKey (mapSet l k v) k = 1
  | [], k, v, _ => by simp [mapSet, countKey]
  | (k0, v0) :: t, k, v, hnd => by
    simp only [List.map_cons, List.nodup_cons] at hnd
    by_cases hk : k0 = k
    · subst hk
      have h0 : countKey t k0 = 0 := countKey_eq_zero hnd.1
      rw [mapSet_cons_eq]
      simpa [countKey, List.filter_cons] using h0
    · have ih := countKey_mapSet t k v hnd.2
      rw [mapSet_cons_ne hk]
      simpa [countKey, List.filter_cons, hk] using ih

/-- In a list sorted by `key`, an element strictly greater than every
other element sits at the end. -/
theorem getLast?_of_strict_max {α : Type} (key : α → Nat) :
    ∀ (l : List α) (x : α), x ∈ l → (∀ y ∈ l, y = x ∨ key y < key x) →
    l.Pairwise (fun a b => key a ≤ key b) → l.getLast? = some x
  | [], x, hx, _, _ => by simp at hx
  | [a], x, hx, _, _ => by simp_all
  | a :: b :: t, x, hx, hmax, hsort => by
    rw [List.getLast?_cons_cons]
    by_cases hxt : x ∈ b :: t
    · exact getLast?_of_strict_max key (b :: t) x hxt
        (fun y hy => hmax y (List.mem_cons_of_mem a hy))
        (List.Pairwise.sublist (by simp) hsort)
    · exfalso
      have hax : x = a := by
        rcases List.mem_cons.1 hx with h | h
        · exact h
        · exact absurd h hxt
      subst hax
      have hab : key x ≤ key b := (List.pairwise_cons.1 hsort).1 b (by simp)
      rcases hmax b (by simp) with h | h
      · rw [h] at hxt
        exact hxt (List.mem_cons_self x t)
      · omega

/- ===== C7: matchUsers and FIFO fairness ===== -/

/-- C7 counterexample.  Queue `u1 < u2 < u3 < u4` (by enqueue time) where
`u1` is dead and `u2`, `u3`, `u4` are live: the pass pops `u1`,`u2`,
discards `u1`, re-adds `u2` to storage, and then pairs `u3` with `u4` —
even though `u2` is live, still waiting, and strictly older than both.
So a pairing is made whose members are not the two oldest live waiting
sessions at that moment, contradicting the claim. -/
theorem matchUsers_skips_oldest_live :
    (matchUsers fifoState 10).2 =
      [Effect.addActiveChat "uuid-0",
       Effect.frame "u3" "partner_found" (Payload.room "uuid-0"),
       Effect.frame "u4" "partner_found" (Payload.room "uuid-0")] ∧
    (matchUsers fifoState 10).1.waiting =
      [("u1", { id := "u1", ip := "1.1.1.1", joinedAt := 1 }),
       ("u2", { id := "u2", ip := "2.2.2.2", joinedAt := 2 })] ∧
    (fifoState.connected "u2").isSome ∧
    (2 : Nat) < 3 := by
  refine ⟨by decide, by decide, by decide, by decide⟩

/-- C7 amended.  When the older of the two popped entries is dead and the
younger is live, the survivor is written back to the queue storage with
its original record (same `joinedAt`, hence at the front of the sorted
queue for subsequent passes) — but the current pass simply continues with
the rest of the snapshot, never reconsidering the survivor; no frame is
emitted for the discarded pair. -/
theorem matchUsers_survivor_requeued_but_skipped (now : Nat)
    (u1 u2 : WaitingUserR) (rest : List WaitingUserR) (st : ServerState)
    (effs : List Effect) (c2 : ConnUser)
    (h1 : st.connected u1.id = none) (h2 : st.connected u2.id = some c2) :
    mmLoop now (u1 :: u2 :: rest) st effs =
      mmLoop now rest { st with waiting := mapSet st.waiting u2.id u2 } effs := by
  simp [mmLoop, h1, h2]

/-- Queue entries of `fifoState`, named for the C7 witness. -/
def wu1 : WaitingUserR := { id := "u1", ip := "1.1.1.1", joinedAt := 1 }

def wu2 : WaitingUserR := { id := "u2", ip := "2.2.2.2", joinedAt := 2 }

/-- C7 amended, witness at the concrete dropout configuration. -/
theorem matchUsers_survivor_witness :
    mmLoop 10 [wu1, wu2] fifoState [] =
      mmLoop 10 [] { fifoState with waiting := mapSet fifoState.waiting "u2" wu2 }
        [] :=
  matchUsers_survivor_requeued_but_skipped 10 wu1 wu2 [] fifoState []
    { id := "u2", ip := "2.2.2.2" } (by decide) (by decide)

/- ===== C10: JOIN_QUEUE while already waiting ===== -/

theorem mmLoop_no_error (now : Nat) :
    ∀ (q : List WaitingUserR) (st : ServerState) (effs : List Effect)
      (uid m : String),
      Effect.frame uid "error" (Payload.text m) ∉ effs →
      Effect.frame uid "error" (Payload.text m) ∉ (mmLoop now q st effs).2
  | [], _, _, _, _, h => by simpa [mmLoop] using h
  | [u1], _, _, _, _, h => by simpa [mmLoop] using h
  | u1 :: u2 :: rest, st, effs, uid, m, h => by
    cases h1 : st.connected u1.id with
    | none =>
      cases h2 : st.connected u2.id with
      | none =>
        simp only [mmLoop, h1, h2]
        exact mmLoop_no_error now rest _ _ uid m h
      | some c2 =>
        simp only [mmLoop, h1, h2]
        exact mmLoop_no_error now rest _ _ uid m h
    | some c1 =>
      cases h2 : st.connected u2.id with
      | none =>
        simp only [mmLoop, h1, h2]
        exact mmLoop_no_error now rest _ _ uid m h
      | some c2 =>
        simp only [mmLoop, h1, h2]
        refine mmLoop_no_error now rest _ _ uid m ?_
        intro hmem
        simp only [List.mem_append, List.mem_singleton] at hmem
        rcases hmem with ((hmem | hmem) | hmem) | hmem
        · exact h hmem
        · exact Effect.noConfusion hmem
        · have := mem_sendToUser hmem
          simp at this
        · have := mem_sendToUser hmem
          simp at this

/-- C10.  A session already in the waiting queue (and unpaired) that sends
`JOIN_QUEUE` again is not answered with `ERROR`: its map entry is
overwritten by a fresh one carrying `joinedAt = now` (so, the enqueue
times of all other entries being older, it moves to the back of the
sorted queue), a second `QUEUE_JOINED` frame is emitted, and the queue
holds exactly one entry for the session id. -/
theorem rejoin_queue (st : ServerState) (uid : String) (u : ConnUser)
    (w0 : WaitingUserR) (now : Nat)
    (hc : st.connected uid = some u) (hp : u.partnerId = none)
    (hw : (uid, w0) ∈ st.waiting)
    (hnd : (st.waiting.map Prod.fst).Nodup)
    (hfresh : ∀ p ∈ st.waiting, p.1 ≠ uid → p.2.joinedAt < now) :
    Effect.frame uid "queue_joined" Payload.empty ∈
      (handleFrame st uid "join_queue" FrameData.empty now).2 ∧
    (∀ m, Effect.frame uid "error" (Payload.text m) ∉
      (handleFrame st uid "join_queue" FrameData.empty now).2) ∧
    countKey (mapSet st.waiting uid ({ id := uid, ip := u.ip, joinedAt := now }))
      uid = 1 ∧
    (List.insertionSort joinedLe (mapValues (mapSet st.waiting uid
        ({ id := uid, ip := u.ip, joinedAt := now })))).getLast?
      = some { id := uid, ip := u.ip, joinedAt := now } := by
  have hres : handleFrame st uid "join_queue" FrameData.empty now =
      (let w2 : WaitingUserR := { id := uid, ip := u.ip, joinedAt := now }
       let st1 : ServerState := { st with waiting := mapSet st.waiting uid w2 }
       let r := matchUsers st1 now
       (r.1, sendToUser st1 uid "queue_joined" .empty ++ r.2)) := by
    simp [handleFrame, hc, hp]
  refine ⟨?_, ?_, ?_, ?_⟩
  · rw [hres]
    simp only [sendToUser, hc, List.mem_append, List.mem_singleton]
    exact Or.inl trivial
  · intro m
    rw [hres]
    simp only [List.mem_append, not_or]
    refine ⟨?_, ?_⟩
    · simp [sendToUser, hc]
    · exact mmLoop_no_error now _ _ [] uid m (by simp)
  · exact countKey_mapSet st.waiting uid _ hnd
  · set w : WaitingUserR := { id := uid, ip := u.ip, joinedAt := now }
    have hsort : (List.insertionSort joinedLe
        (mapValues (mapSet st.waiting uid w))).Pairwise
        (fun a b => a.joinedAt ≤ b.joinedAt) :=
      List.sorted_insertionSort joinedLe (mapValues (mapSet st.waiting uid w))
    have hmem : w ∈ List.insertionSort joinedLe
        (mapValues (mapSet st.waiting uid w)) := by
      rw [List.mem_insertionSort]
      exact List.mem_map_of_mem Prod.snd (mem_mapSet_self st.waiting uid w)
    refine getLast?_of_strict_max (fun y => y.joinedAt) _ w hmem ?_ hsort
    intro y hy
    rw [List.mem_insertionSort] at hy
    rcases List.mem_map.1 hy with ⟨p, hp1, hp2⟩
    rcases mem_mapSet_nodup st.waiting uid w p hnd hp1 with h1 | h1
    · left
      rw [← hp2, h1]
    · right
      rw [← hp2]
      exact hfresh p h1.1 h1.2

/-- C10 witness at the concrete configuration: the lone waiting session
`w` rejoins at time 50 (its stored entry has `joinedAt = 5`). -/
theorem rejoin_queue_witness :
    Effect.frame "w" "queue_joined" Payload.empty ∈
      (handleFrame rejoinState "w" "join_queue" FrameData.empty 50).2 ∧
    (∀ m, Effect.frame "w" "error" (Payload.text m) ∉
      (handleFrame rejoinState "w" "join_queue" FrameData.empty 50).2) ∧
    countKey (mapSet rejoinState.waiting "w"
      ({ id := "w", ip := "9.9.9.9", joinedAt := 50 })) "w" = 1 ∧
    (List.insertionSort joinedLe (mapValues (mapSet rejoinState.waiting "w"
        ({ id := "w", ip := "9.9.9.9", joinedAt := 50 })))).getLast?
      = some { id := "w", ip := "9.9.9.9", joinedAt := 50 } :=
  rejoin_queue rejoinState "w" { id := "w", ip := "9.9.9.9" }
    { id := "w", ip := "9.9.9.9", joinedAt := 5 } 50
    (by decide) (by decide) (by decide) (by decide) (by decide)

/- ===== C1: flagged log rows and relaying ===== -/

/-- Effects of the warning-severity run: `a`, paired with `b`, sends
`"idiot"` (fresh regex registers, empty rate table). -/
def warnRunEffects : List Effect :=
  (stepE pairedState (Op.frame "a" "send_message"
    (FrameData.content "idiot".data) 100)).2

/-- Effects of the blocked-severity run: `a`, paired with `b`, sends
`"damn"`. -/
def blockedRunEffects : List Effect :=
  (stepE pairedState (Op.frame "a" "send_message"
    (FrameData.content "damn".data) 100)).2

/-- The `ChatMessage` the warning run delivers to `b`. -/
def idiotMsg : ChatMessageR :=
  { id := "uuid-0", content := "idiot".data, senderId := "a", timestamp := 100 }

/-- The `ChatMessage` the blocked run would have delivered to `b`. -/
def damnMsg : ChatMessageR :=
  { id := "uuid-0", content := "damn".data, senderId := "a", timestamp := 100 }

/-- C1 counterexample.  The warning path appends a MessageLog row with
`flagged = true` (reason `'Contains potentially offensive content'`) *and*
relays the message to the partner as `MESSAGE_RECEIVED` — so a flagged row
does not imply the partner never received the message. -/
theorem warning_flagged_row_yet_relayed :
    Effect.logRow "r" "1.1.1.1" "idiot".data true
        (some "Contains potentially offensive content") ∈ warnRunEffects ∧
    Effect.frame "b" "message_received" (Payload.message idiotMsg)
      ∈ warnRunEffects := by
  exact ⟨by decide, by decide⟩

/-- `checkProfanity` returns one of exactly three result records. -/
theorem checkProfanity_cases (pLI wLI : List Nat) (s : List Char) :
    (checkProfanity pLI wLI s).1 =
      { isClean := false, flagged := true,
        reason := some "Contains prohibited content", severity := .blocked } ∨
    (checkProfanity pLI wLI s).1 =
      { isClean := true, flagged := true,
        reason := some "Contains potentially offensive content",
        severity := .warning } ∨
    (checkProfanity pLI wLI s).1 =
      { isClean := true, flagged := false, reason := none,
        severity := .clean } := by
  unfold checkProfanity
  by_cases h1 : (runTests profanePatterns pLI s).1 = true
  · simp [h1]
  · by_cases h2 : (runTests warningPatterns wLI s).1 = true <;> simp [h1, h2]

/-- C1 amended.  A MessageLog row appended with reason `'spam'` or
`'profanity'` (the spam and blocked outcomes) is never relayed: the same
`SEND_MESSAGE` dispatch emits no `MESSAGE_RECEIVED` frame to anyone.
(Warning-severity rows are also flagged, but are relayed in filtered form,
as the counterexample shows.) -/
theorem flagged_spam_or_blocked_not_relayed (st : ServerState)
    (uid : String) (data : FrameData) (now : Nat) (r ip : String)
    (c : List Char) (dst : String) (p : Payload)
    (h : Effect.logRow r ip c true (some "spam") ∈
        (stepE st (Op.frame uid "send_message" data now)).2 ∨
      Effect.logRow r ip c true (some "profanity") ∈
        (stepE st (Op.frame uid "send_message" data now)).2) :
    Effect.frame dst "message_received" p ∉
      (stepE st (Op.frame uid "send_message" data now)).2 := by
  rcases hcu : st.connected uid with - | u
  · simp [stepE, handleFrame, hcu] at h
  · simp only [stepE, handleFrame, hcu] at h ⊢
    simp only [String.reduceEq, if_false, if_true, reduceIte] at h ⊢
    rcases hpid : u.partnerId with - | partner
    · simp only [sendMessagePath, hpid] at h
      rcases h with h | h <;> exact absurd (mem_sendToUser h) (by simp)
    · simp only [sendMessagePath, hpid] at h ⊢
      cases hrl : checkRateLimit st.rateTable u.ip "message" 20 60 now with
      | false => simp [hrl, sendToUser, hcu] at h
      | true =>
        simp only [hrl, Bool.true_eq_false, if_false, ite_false, reduceIte] at h ⊢
        rcases hmp : messageParse data.contentField with - | content
        · simp [hmp, sendToUser, hcu] at h
        · simp only [hmp] at h ⊢
          cases hsp : isSpam (sanitizeMessage content) with
          | true =>
            simp only [hsp, if_true, reduceIte] at h ⊢
            rcases hr : u.roomId with - | room
            · simp [hr, sendToUser, hcu] at h ⊢
            · simp [hr, sendToUser, hcu] at h ⊢
          | false =>
            simp only [hsp, Bool.false_eq_true, if_false, ite_false, reduceIte] at h ⊢
            by_cases hsev : (checkProfanity st.profaneLI st.warnLI
                (sanitizeMessage content)).1.severity = Severity.blocked
            · simp only [hsev, if_true, reduceIte] at h ⊢
              rcases hr : u.roomId with - | room
              · simp [hr, sendToUser, hcu] at h ⊢
              · simp [hr, sendToUser, hcu] at h ⊢
            · simp only [if_neg hsev] at h ⊢
              exfalso
              rcases checkProfanity_cases st.profaneLI st.warnLI
                  (sanitizeMessage content) with hcase | hcase | hcase
              · exact hsev (by rw [hcase])
              all_goals
                rcases hr : u.roomId with - | room <;>
                  rcases hcp : st.connected partner with - | pu <;>
                    simp [hcase, hr, hcp, sendToUser, hcu] at h


/-- C1 amended, witness: the blocked run of `"damn"` appends a
`'profanity'` row and relays nothing. -/
theorem flagged_not_relayed_witness :
    Effect.frame "b" "message_received" (Payload.message damnMsg)
      ∉ blockedRunEffects :=
  flagged_spam_or_blocked_not_relayed pairedState "a"
    (FrameData.content "damn".data) 100 "r" "1.1.1.1" "damn".data "b"
    (Payload.message damnMsg) (Or.inr (by decide))

/- ===== C6: masking of warning-severity messages ===== -/

/-- C6 counterexample.  `"idiot"` is classified `warning`, yet the frame
relayed to the partner carries the text `"idiot"` unchanged — no span was
replaced by `*`s (the content holds no `*` at all): `filterContent` masks
only `profanePatterns`, never the `warningPatterns` match that triggered
the warning. -/
theorem warning_term_reaches_partner_unmasked :
    Effect.frame "b" "message_received" (Payload.message idiotMsg)
      ∈ warnRunEffects ∧
    (checkProfanity (List.replicate nProfane 0) (List.replicate 6 0)
      (sanitizeMessage "idiot".data)).1.severity = Severity.warning ∧
    idiotMsg.content = "idiot".data ∧
    Char.ofNat 42 ∉ idiotMsg.content := by
  exact ⟨by decide, by decide, by decide, by decide⟩

theorem replStars_id (re : RE) (s : List Char) (h : findFrom re s 0 = none) :
    replStars re s = s := by
  simp [replStars, replGo, h]

theorem foldl_replStars_id :
    ∀ (ps : List RE) (s : List Char),
      (∀ re ∈ ps, findFrom re s 0 = none) →
      ps.foldl (fun acc re => replStars re acc) s = s
  | [], _, _ => rfl
  | re :: ps, s, h => by
    rw [List.foldl_cons, replStars_id re s (h re (by simp))]
    exact foldl_replStars_id ps s (fun r hr => h r (by simp [hr]))

/-- C6 amended.  On a warning-severity message the relayed content is
`filterContent` of the sanitized text — each `profanePatterns` match is
masked with `*`s — and `filterContent` changes nothing else: on a text
matching no profane pattern (such as one that only triggers a
`warningPatterns` match) the content is forwarded entirely unmasked. -/
theorem warning_relay_masks_only_profane :
    (∀ (st : ServerState) (uid : String) (u : ConnUser) (data : FrameData)
      (now : Nat) (content : List Char) (dst : String) (m : ChatMessageR),
      st.connected uid = some u →
      messageParse data.contentField = some content →
      (checkProfanity st.profaneLI st.warnLI
        (sanitizeMessage content)).1.severity = Severity.warning →
      Effect.frame dst "message_received" (Payload.message m) ∈
        (stepE st (Op.frame uid "send_message" data now)).2 →
      m.content = filterContent (sanitizeMessage content)) ∧
    (∀ s : List Char, (∀ re ∈ profanePatterns, findFrom re s 0 = none) →
      filterContent s = s) := by
  constructor
  · intro st uid u data now content dst m hcu hmp hwarn hmem
    simp only [stepE, handleFrame, hcu] at hmem
    simp only [String.reduceEq, if_false, if_true, reduceIte] at hmem
    rcases hpid : u.partnerId with - | partner
    · simp only [sendMessagePath, hpid] at hmem
      exact absurd (mem_sendToUser hmem) (by simp)
    · simp only [sendMessagePath, hpid] at hmem
      cases hrl : checkRateLimit st.rateTable u.ip "message" 20 60 now with
      | false => simp [hrl, sendToUser, hcu] at hmem
      | true =>
        simp only [hrl, Bool.true_eq_false, if_false, ite_false, reduceIte]
          at hmem
        simp only [hmp] at hmem
        cases hsp : isSpam (sanitizeMessage content) with
        | true =>
          rcases hr : u.roomId with - | room <;>
            simp [hsp, hr, sendToUser, hcu] at hmem
        | false =>
          have hsev : ¬ ((checkProfanity st.profaneLI st.warnLI
              (sanitizeMessage content)).1.severity = Severity.blocked) := by
            rw [hwarn]
            exact Severity.noConfusion
          rcases hr : u.roomId with - | room <;>
            rcases hcp : st.connected partner with - | pu <;>
              simp [hsp, hsev, hwarn, hr, hcp, sendToUser, hcu] at hmem <;>
                simp [hmem]
  · intro s h
    exact foldl_replStars_id profanePatterns s h

/-- C6 amended, witness at the warning run of `"idiot"`: the relayed
content is `filterContent` of the sanitized text, and `filterContent`
leaves `"idiot"` (which matches no profane pattern) untouched. -/
theorem warning_relay_masks_only_profane_witness :
    idiotMsg.content = filterContent (sanitizeMessage "idiot".data) ∧
    filterContent "idiot".data = "idiot".data :=
  ⟨warning_relay_masks_only_profane.1 pairedState "a" userA
      (FrameData.content "idiot".data) 100 "idiot".data "b" idiotMsg
      (by decide) (by decide) (by decide) (by decide),
   warning_relay_masks_only_profane.2 "idiot".data (by decide)⟩

/- ===== C3: SEND_MESSAGE pipeline order ===== -/

/-- Effects of sending 2001 `'a'`s from the paired session `a`. -/
def longRunEffects : List Effect :=
  (stepE pairedState (Op.frame "a" "send_message"
    (FrameData.content (List.replicate 2001 'a')) 100)).2

/-- A paired, rate-allowed sender whose frame fails `messageSchema.parse`
on the raw content gets exactly the already-recorded increment and an
`ERROR{"Invalid message"}`. -/
theorem sendMessage_rejected_raw (st : ServerState) (uid : String)
    (u : ConnUser) (data : FrameData) (now : Nat) (partner : String)
    (hcu : st.connected uid = some u) (hpid : u.partnerId = some partner)
    (hrl : checkRateLimit st.rateTable u.ip "message" 20 60 now = true)
    (hmp : messageParse data.contentField = none) :
    (stepE st (Op.frame uid "send_message" data now)).2 =
      [Effect.rlIncrement u.ip "message",
       Effect.frame uid "error" (Payload.text "Invalid message")] := by
  simp [stepE, handleFrame, hcu, sendMessagePath, hpid, hrl, hmp, sendToUser]

/-- C3 counterexample.  A 2001-character message is not clamped and
accepted: `messageSchema.parse` runs on the *raw* content before
`sanitizeMessage`, so the input fails validation and only an
`ERROR{"Invalid message"}` goes back — and the rate-limiter increment has
already been recorded before validation, not at step 8 after relay. -/
theorem long_message_rejected_after_increment :
    longRunEffects = [Effect.rlIncrement "1.1.1.1" "message",
      Effect.frame "a" "error" (Payload.text "Invalid message")] :=
  sendMessage_rejected_raw pairedState "a" userA
    (FrameData.content (List.replicate 2001 'a')) 100 "b" (by decide)
    (by decide) (by decide) (by simp [messageParse, FrameData.contentField])

/-- C3 amended.  The pipeline's actual order is: paired gate, rate-limit
check, rate-limiter increment, schema validation of the raw content,
sanitization, spam check, profanity check, relay, counters and log
append.  Concretely: (1) past the rate gate the very first effect is the
increment, whatever happens later; (2) content failing the raw schema
(empty, or over 2000 characters before sanitization) yields exactly
`[increment, ERROR "Invalid message"]`; (3) an accepted message yields
exactly `[increment, relay, room counter, daily counter, log row]` — the
relay before the log append. -/
theorem send_message_actual_order :
    (∀ (st : ServerState) (uid : String) (u : ConnUser) (data : FrameData)
      (now : Nat) (partner : String),
      st.connected uid = some u → u.partnerId = some partner →
      checkRateLimit st.rateTable u.ip "message" 20 60 now = true →
      ∃ tail, (stepE st (Op.frame uid "send_message" data now)).2 =
        Effect.rlIncrement u.ip "message" :: tail) ∧
    (∀ (st : ServerState) (uid : String) (u : ConnUser) (data : FrameData)
      (now : Nat) (partner : String),
      st.connected uid = some u → u.partnerId = some partner →
      checkRateLimit st.rateTable u.ip "message" 20 60 now = true →
      messageParse data.contentField = none →
      (stepE st (Op.frame uid "send_message" data now)).2 =
        [Effect.rlIncrement u.ip "message",
         Effect.frame uid "error" (Payload.text "Invalid message")]) ∧
    (∀ (st : ServerState) (uid : String) (u : ConnUser) (data : FrameData)
      (now : Nat) (partner : String) (content : List Char) (room : String)
      (pu : ConnUser),
      st.connected uid = some u → u.partnerId = some partner →
      checkRateLimit st.rateTable u.ip "message" 20 60 now = true →
      messageParse data.contentField = some content →
      isSpam (sanitizeMessage content) = false →
      (checkProfanity st.profaneLI st.warnLI
        (sanitizeMessage content)).1.severity ≠ Severity.blocked →
      u.roomId = some room → st.connected partner = some pu →
      (stepE st (Op.frame uid "send_message" data now)).2 =
        (let pr := (checkProfanity st.profaneLI st.warnLI
          (sanitizeMessage content)).1
         let c2 := if pr.severity = Severity.warning then
           filterContent (sanitizeMessage content) else sanitizeMessage content
         [Effect.rlIncrement u.ip "message",
          Effect.frame partner "message_received" (Payload.message
            ({ id := uuidStr st.uuidCtr, content := c2, senderId := uid,
               timestamp := now })),
          Effect.incrementMessageCount room, Effect.incrementTodayMessages,
          Effect.logRow room u.ip c2 pr.flagged pr.reason])) := by
  refine ⟨?_, ?_, ?_⟩
  · intro st uid u data now partner hcu hpid hrl
    simp only [stepE, handleFrame, hcu, String.reduceEq, if_false, if_true,
      reduceIte, sendMessagePath, hpid, hrl, Bool.true_eq_false, ite_false]
    rcases hmp : messageParse data.contentField with - | content
    · exact ⟨_, rfl⟩
    · cases hsp : isSpam (sanitizeMessage content) with
      | true =>
        rcases hr : u.roomId with - | room <;> simp [hsp, hr]
      | false =>
        by_cases hsev : (checkProfanity st.profaneLI st.warnLI
            (sanitizeMessage content)).1.severity = Severity.blocked <;>
          rcases hr : u.roomId with - | room <;> simp [hsp, hsev, hr]
  · intro st uid u data now partner hcu hpid hrl hmp
    exact sendMessage_rejected_raw st uid u data now partner hcu hpid hrl hmp
  · intro st uid u data now partner content room pu hcu hpid hrl hmp hsp
      hsev hr hcp
    by_cases hw2 : (checkProfanity st.profaneLI st.warnLI
        (sanitizeMessage content)).1.severity = Severity.warning <;>
      simp [stepE, handleFrame, hcu, sendMessagePath, hpid, hrl, hmp, hsp,
        hsev, hr, hcp, sendToUser, hw2]

/-- C3 amended, witness: the empty message from the paired session is
rejected with exactly `[increment, ERROR "Invalid message"]`. -/
theorem send_message_actual_order_witness :
    (stepE pairedState (Op.frame "a" "send_message"
      (FrameData.content []) 100)).2 =
      [Effect.rlIncrement "1.1.1.1" "message",
       Effect.frame "a" "error" (Payload.text "Invalid message")] :=
  send_message_actual_order.2.1 pairedState "a" userA
    (FrameData.content []) 100 "b" (by decide) (by decide) (by decide)
    (by decide)

/- ===== C4: the pairing-link invariant ===== -/

theorem fset_at {β : Type} (m : String → Option β) (k : String) (v : β) :
    fset m k v k = some v := by
  simp [fset]

theorem fset_away {β : Type} (m : String → Option β) (k : String) (v : β)
    {x : String} (h : x ≠ k) : fset m k v x = m x := by
  simp [fset, h]

theorem fset_unchanged {β : Type} (m : String → Option β) (k : String) (v : β)
    (h : m k = some v) : fset m k v = m := by
  funext x
  by_cases hx : x = k
  · subst hx
    rw [fset_at, h]
  · rw [fset_away m k v hx]

theorem fdel_away {β : Type} (m : String → Option β) (k : String)
    {x : String} (h : x ≠ k) : fdel m k x = m x := by
  simp [fdel, h]

/-- The per-registry part of the invariant: key consistency, the
partner/room fields set together, no self-partner, and the symmetric
cross-link (C4's heart). -/
def LinkInv (conn : String → Option ConnUser) : Prop :=
  ∀ id u, conn id = some u →
    u.id = id ∧
    u.partnerId.isSome = u.roomId.isSome ∧
    u.partnerId ≠ some id ∧
    (∀ p, u.partnerId = some p →
      ∃ v, conn p = some v ∧ v.partnerId = some id ∧ v.roomId = u.roomId)

/-- The queue part: stored entries carry their key as `id`, keys are
unique, and every queued live session is unpaired. -/
def QueueOk (st : ServerState) : Prop :=
  (∀ q ∈ st.waiting, (q.2 : WaitingUserR).id = q.1) ∧
  (st.waiting.map Prod.fst).Nodup ∧
  (∀ q ∈ st.waiting, ∀ u, st.connected (q.2 : WaitingUserR).id = some u →
    u.partnerId = none)

def Inv (st : ServerState) : Prop := LinkInv st.connected ∧ QueueOk st

theorem Inv_of_eq {st st2 : ServerState} (hc : st2.connected = st.connected)
    (hw : st2.waiting = st.waiting) (h : Inv st) : Inv st2 := by
  unfold Inv LinkInv QueueOk at *
  rw [hc, hw]
  exact h

/-- Nobody's partner points at an unpaired session. -/
theorem no_inbound_of_unpaired {conn : String → Option ConnUser}
    (h : LinkInv conn) {a : String} {ca : ConnUser} (ha : conn a = some ca)
    (hpa : ca.partnerId = none) :
    ∀ id u, conn id = some u → u.partnerId ≠ some a := by
  intro id u hu hcontra
  obtain ⟨-, -, -, hsym⟩ := h id u hu
  obtain ⟨v, hv, hvp, -⟩ := hsym a hcontra
  rw [ha] at hv
  cases hv
  rw [hpa] at hvp
  exact Option.noConfusion hvp

/-- Registering a fresh unpaired session preserves the link invariant. -/
theorem LinkInv_add {conn : String → Option ConnUser} (h : LinkInv conn)
    {a : String} (ha : conn a = none) (ip : String) :
    LinkInv (fset conn a { id := a, ip := ip }) := by
  intro id u hu
  by_cases hid : id = a
  · subst hid
    rw [fset_at] at hu
    cases hu
    refine ⟨rfl, rfl, by simp, ?_⟩
    intro p hp
    exact Option.noConfusion hp
  · rw [fset_away conn a _ hid] at hu
    obtain ⟨h1, h2, h3, h4⟩ := h id u hu
    refine ⟨h1, h2, h3, ?_⟩
    intro p hp
    obtain ⟨v, hv, hvp, hvr⟩ := h4 p hp
    have hpa : p ≠ a := by
      intro he
      rw [he, ha] at hv
      exact Option.noConfusion hv
    exact ⟨v, by rw [fset_away conn a _ hpa]; exact hv, hvp, hvr⟩

/-- Cross-linking two distinct unpaired sessions preserves the link
invariant (the `matchUsers` pairing step). -/
theorem LinkInv_pair {conn : String → Option ConnUser} (h : LinkInv conn)
    {a b : String} {ca cb : ConnUser} (ha : conn a = some ca)
    (hb : conn b = some cb) (hab : a ≠ b) (hpa : ca.partnerId = none)
    (hpb : cb.partnerId = none) (r : String) :
    LinkInv (fset (fset conn a
      { ca with partnerId := some cb.id, roomId := some r }) b
      { cb with partnerId := some ca.id, roomId := some r }) := by
  have hcaid : ca.id = a := (h a ca ha).1
  have hcbid : cb.id = b := (h b cb hb).1
  intro id u hu
  by_cases hib : id = b
  · subst hib
    rw [fset_at] at hu
    cases hu
    refine ⟨hcbid, rfl, by simp [hcaid]; exact hab, ?_⟩
    intro p hp
    simp only [hcaid] at hp
    cases hp
    refine ⟨{ ca with partnerId := some cb.id, roomId := some r }, ?_, ?_, rfl⟩
    · rw [fset_away _ id _ hab, fset_at]
    · simp [hcbid]
  · rw [fset_away _ b _ hib] at hu
    by_cases hia : id = a
    · subst hia
      rw [fset_at] at hu
      cases hu
      refine ⟨hcaid, rfl, by simp [hcbid]; exact fun he => hib he.symm, ?_⟩
      intro p hp
      simp only [hcbid] at hp
      cases hp
      refine ⟨{ cb with partnerId := some ca.id, roomId := some r },
        by rw [fset_at], ?_, rfl⟩
      simp [hcaid]
    · rw [fset_away conn a _ hia] at hu
      obtain ⟨h1, h2, h3, h4⟩ := h id u hu
      refine ⟨h1, h2, h3, ?_⟩
      intro p hp
      obtain ⟨v, hv, hvp, hvr⟩ := h4 p hp
      have hpna : p ≠ a := by
        intro he
        subst he
        rw [ha] at hv
        cases hv
        rw [hpa] at hvp
        exact Option.noConfusion hvp
      have hpnb : p ≠ b := by
        intro he
        subst he
        rw [hb] at hv
        cases hv
        rw [hpb] at hvp
        exact Option.noConfusion hvp
      refine ⟨v, ?_, hvp, hvr⟩
      rw [fset_away _ b _ hpnb, fset_away conn a _ hpna]
      exact hv

/-- Severing an existing pair (the `DISCONNECT_CHAT` handler) preserves
the link invariant. -/
theorem LinkInv_unpair {conn : String → Option ConnUser} (h : LinkInv conn)
    {a p : String} {ua pu : ConnUser} (ha : conn a = some ua)
    (hp : ua.partnerId = some p) (hpu : conn p = some pu) :
    LinkInv (fset (fset conn p { pu with partnerId := none, roomId := none })
      a { ua with partnerId := none, roomId := none }) := by
  have hpa : p ≠ a := by
    intro he
    exact (h a ua ha).2.2.1 (he ▸ hp)
  have hpusym : pu.partnerId = some a := by
    obtain ⟨v, hv, hvp, -⟩ := (h a ua ha).2.2.2 p hp
    rw [hpu] at hv
    cases hv
    exact hvp
  intro id u hu
  by_cases hia : id = a
  · subst hia
    rw [fset_at] at hu
    cases hu
    exact ⟨(h id ua ha).1, rfl, by simp, fun q hq => Option.noConfusion hq⟩
  · rw [fset_away _ a _ hia] at hu
    by_cases hip : id = p
    · subst hip
      rw [fset_at] at hu
      cases hu
      exact ⟨(h id pu hpu).1, rfl, by simp, fun q hq => Option.noConfusion hq⟩
    · rw [fset_away conn p _ hip] at hu
      obtain ⟨h1, h2, h3, h4⟩ := h id u hu
      refine ⟨h1, h2, h3, ?_⟩
      intro q hq
      obtain ⟨v, hv, hvp, hvr⟩ := h4 q hq
      have hqa : q ≠ a := by
        intro he
        subst he
        rw [ha] at hv
        cases hv
        rw [hp] at hvp
        cases hvp
        exact hip rfl
      have hqp : q ≠ p := by
        intro he
        subst he
        rw [hpu] at hv
        cases hv
        rw [hpusym] at hvp
        cases hvp
        exact hia rfl
      refine ⟨v, ?_, hvp, hvr⟩
      rw [fset_away _ a _ hqa, fset_away conn p _ hqp]
      exact hv

/-- Deleting an unpaired session preserves the link invariant. -/
theorem LinkInv_del_unpaired {conn : String → Option ConnUser}
    (h : LinkInv conn) {a : String} {ua : ConnUser} (ha : conn a = some ua)
    (hpa : ua.partnerId = none) : LinkInv (fdel conn a) := by
  intro id u hu
  by_cases hia : id = a
  · subst hia
    simp [fdel] at hu
  · rw [fdel_away conn a hia] at hu
    obtain ⟨h1, h2, h3, h4⟩ := h id u hu
    refine ⟨h1, h2, h3, ?_⟩
    intro q hq
    obtain ⟨v, hv, hvp, hvr⟩ := h4 q hq
    have hqa : q ≠ a := by
      intro he
      exact no_inbound_of_unpaired h ha hpa id u hu (he ▸ hq)
    exact ⟨v, by rw [fdel_away conn a hqa]; exact hv, hvp, hvr⟩

/-- Deleting a paired session after clearing its partner's link (the
`handleDisconnect` finalizer) preserves the link invariant. -/
theorem LinkInv_close_paired {conn : String → Option ConnUser}
    (h : LinkInv conn) {a p : String} {ua pu : ConnUser}
    (ha : conn a = some ua) (hp : ua.partnerId = some p)
    (hpu : conn p = some pu) :
    LinkInv (fdel (fset conn p { pu with partnerId := none, roomId := none })
      a) := by
  have hpa : p ≠ a := by
    intro he
    exact (h a ua ha).2.2.1 (he ▸ hp)
  have hpusym : pu.partnerId = some a := by
    obtain ⟨v, hv, hvp, -⟩ := (h a ua ha).2.2.2 p hp
    rw [hpu] at hv
    cases hv
    exact hvp
  intro id u hu
  by_cases hia : id = a
  · subst hia
    simp [fdel] at hu
  · rw [fdel_away _ a hia] at hu
    by_cases hip : id = p
    · subst hip
      rw [fset_at] at hu
      cases hu
      exact ⟨(h id pu hpu).1, rfl, by simp, fun q hq => Option.noConfusion hq⟩
    · rw [fset_away conn p _ hip] at hu
      obtain ⟨h1, h2, h3, h4⟩ := h id u hu
      refine ⟨h1, h2, h3, ?_⟩
      intro q hq
      obtain ⟨v, hv, hvp, hvr⟩ := h4 q hq
      have hqa : q ≠ a := by
        intro he
        subst he
        rw [ha] at hv
        cases hv
        rw [hp] at hvp
        cases hvp
        exact hip rfl
      have hqp : q ≠ p := by
        intro he
        subst he
        rw [hpu] at hv
        cases hv
        rw [hpusym] at hvp
        cases hvp
        exact hia rfl
      refine ⟨v, ?_, hvp, hvr⟩
      rw [fdel_away _ a hqa, fset_away conn p _ hqp]
      exact hv

theorem mem_mapDel {β : Type} {l : List (String × β)} {k : String}
    {p : String × β} (h : p ∈ mapDel l k) : p ∈ l ∧ p.1 ≠ k := by
  unfold mapDel at h
  rw [List.mem_filter] at h
  exact ⟨h.1, by simpa using h.2⟩

theorem nodup_keys_mapDel {β : Type} {l : List (String × β)} (k : String)
    (h : (l.map Prod.fst).Nodup) : ((mapDel l k).map Prod.fst).Nodup :=
  List.Nodup.sublist (List.Sublist.map Prod.fst (List.filter_sublist l)) h

theorem Inv_connectStep (st : ServerState) (uid ip : String) (now : Nat)
    (h : Inv st) : Inv (connectStep st uid ip now).1 := by
  unfold connectStep
  split
  · exact h
  split
  · exact h
  split
  · exact Inv_of_eq rfl rfl h
  · rename_i hfree
    have hnone : st.connected uid = none := by
      rcases hn : st.connected uid with - | v
      · rfl
      · exact absurd (by rw [hn]; rfl) hfree
    refine ⟨LinkInv_add h.1 hnone ip, h.2.1, h.2.2.1, ?_⟩
    intro q hq u hu
    dsimp only at hq hu
    by_cases hqa : (q.2 : WaitingUserR).id = uid
    · rw [hqa, fset_at] at hu
      cases hu
      rfl
    · rw [fset_away _ uid _ hqa] at hu
      exact h.2.2.2 q hq u hu

theorem Inv_handleDisconnect (st : ServerState) (uid : String) (h : Inv st) :
    Inv (handleDisconnect st uid).1 := by
  unfold handleDisconnect
  rcases hcu : st.connected uid with - | u
  · exact h
  · have hqok : ∀ (conn1 : String → Option ConnUser),
        (∀ x u2, conn1 x = some u2 →
          st.connected x = some u2 ∨ u2.partnerId = none) →
        (∀ q ∈ mapDel st.waiting uid, ∀ v,
          fdel conn1 uid (q.2 : WaitingUserR).id = some v →
          v.partnerId = none) := by
      intro conn1 hconn1 q hq v hv
      obtain ⟨hql, -⟩ := mem_mapDel hq
      by_cases hqa : (q.2 : WaitingUserR).id = uid
      · rw [hqa] at hv
        simp [fdel] at hv
      · rw [fdel_away _ uid hqa] at hv
        rcases hconn1 _ _ hv with h2 | h2
        · exact h.2.2.2 q hql v h2
        · exact h2
    dsimp only
    rcases hpid : u.partnerId with - | p
    · simp only [hpid]
      refine ⟨LinkInv_del_unpaired h.1 hcu hpid, ?_, ?_, ?_⟩
      · intro q hq
        exact h.2.1 q (mem_mapDel hq).1
      · exact nodup_keys_mapDel uid h.2.2.1
      · exact hqok st.connected (fun x u2 hx => Or.inl hx)
    · obtain ⟨pu, hpu, -, -⟩ := (h.1 uid u hcu).2.2.2 p hpid
      simp only [hpid, hpu]
      refine ⟨LinkInv_close_paired h.1 hcu hpid hpu, ?_, ?_, ?_⟩
      · intro q hq
        exact h.2.1 q (mem_mapDel hq).1
      · exact nodup_keys_mapDel uid h.2.2.1
      · refine hqok _ ?_
        intro x u2 hx
        by_cases hxp : x = p
        · subst hxp
          rw [fset_at] at hx
          cases hx
          exact Or.inr rfl
        · rw [fset_away _ p _ hxp] at hx
          exact Or.inl hx

theorem Inv_mmLoop (now : Nat) :
    ∀ (q : List WaitingUserR) (st : ServerState) (effs : List Effect),
      Inv st →
      (∀ w ∈ q, ∀ u, st.connected w.id = some u → u.partnerId = none) →
      (q.map (fun w => w.id)).Nodup →
      Inv (mmLoop now q st effs).1
  | [], st, effs, h, _, _ => by simpa [mmLoop] using h
  | [u1], st, effs, h, _, _ => by simpa [mmLoop] using h
  | u1 :: u2 :: rest, st, effs, h, hloc, hnd => by
    simp only [List.map_cons, List.nodup_cons, List.mem_cons, not_or] at hnd
    rcases h1 : st.connected u1.id with - | c1
    · rcases h2 : st.connected u2.id with - | c2
      · simp only [mmLoop, h1, h2]
        exact Inv_mmLoop now rest st effs h
          (fun w hw => hloc w (by simp [hw])) hnd.2.2
      · simp only [mmLoop, h1, h2]
        refine Inv_mmLoop now rest _ effs ⟨h.1, ?_, ?_, ?_⟩
          (fun w hw => hloc w (by simp [hw])) hnd.2.2
        · intro p hp
          rcases mem_mapSet_weak st.waiting u2.id u2 p hp with hp1 | hp1
          · rw [hp1]
          · exact h.2.1 p hp1
        · exact nodup_keys_mapSet st.waiting u2.id u2 h.2.2.1
        · intro p hp v hv
          rcases mem_mapSet_weak st.waiting u2.id u2 p hp with hp1 | hp1
          · rw [hp1] at hv
            exact hloc u2 (by simp) v hv
          · exact h.2.2.2 p hp1 v hv
    · rcases h2 : st.connected u2.id with - | c2
      · simp only [mmLoop, h1, h2]
        refine Inv_mmLoop now rest _ effs ⟨h.1, ?_, ?_, ?_⟩
          (fun w hw => hloc w (by simp [hw])) hnd.2.2
        · intro p hp
          rcases mem_mapSet_weak st.waiting u1.id u1 p hp with hp1 | hp1
          · rw [hp1]
          · exact h.2.1 p hp1
        · exact nodup_keys_mapSet st.waiting u1.id u1 h.2.2.1
        · intro p hp v hv
          rcases mem_mapSet_weak st.waiting u1.id u1 p hp with hp1 | hp1
          · rw [hp1] at hv
            exact hloc u1 (by simp) v hv
          · exact h.2.2.2 p hp1 v hv
      · simp only [mmLoop, h1, h2]
        have hne : u1.id ≠ u2.id := hnd.1.1
        have hp1n : c1.partnerId = none := hloc u1 (by simp) c1 h1
        have hp2n : c2.partnerId = none := hloc u2 (by simp) c2 h2
        set r := uuidStr st.uuidCtr
        set conn2 := fset (fset st.connected u1.id
          { c1 with partnerId := some c2.id, roomId := some r }) u2.id
          { c2 with partnerId := some c1.id, roomId := some r } with hconn2
        have hlink2 : LinkInv conn2 :=
          LinkInv_pair h.1 h1 h2 hne hp1n hp2n r
        have hlook : ∀ x, x ≠ u1.id → x ≠ u2.id → conn2 x = st.connected x := by
          intro x hx1 hx2
          rw [hconn2, fset_away _ u2.id _ hx2, fset_away _ u1.id _ hx1]
        refine Inv_mmLoop now rest _ _ ⟨hlink2, ?_, ?_, ?_⟩ ?_ hnd.2.2
        · intro p hp
          exact h.2.1 p (mem_mapDel (mem_mapDel hp).1).1
        · exact nodup_keys_mapDel u2.id (nodup_keys_mapDel u1.id h.2.2.1)
        · intro p hp v hv
          dsimp only at hp hv
          obtain ⟨hpd, hp2ne⟩ := mem_mapDel hp
          obtain ⟨hpl, hp1ne⟩ := mem_mapDel hpd
          have hkey : (p.2 : WaitingUserR).id = p.1 := h.2.1 p hpl
          rw [hlook _ (hkey ▸ hp1ne) (hkey ▸ hp2ne)] at hv
          exact h.2.2.2 p hpl v hv
        · intro w hw v hv
          dsimp only at hv
          have hwmem : w.id ∈ rest.map (fun x => x.id) :=
            List.mem_map_of_mem _ hw
          have hw1 : w.id ≠ u1.id := fun he => hnd.1.2 (he ▸ hwmem)
          have hw2 : w.id ≠ u2.id := fun he => hnd.2.1 (he ▸ hwmem)
          rw [hlook _ hw1 hw2] at hv
          exact hloc w (by simp [hw]) v hv

theorem sendMessagePath_state (st : ServerState) (uid : String) (u : ConnUser)
    (data : FrameData) (now : Nat) :
    (sendMessagePath st uid u data now).1.connected = st.connected ∧
    (sendMessagePath st uid u data now).1.waiting = st.waiting := by
  unfold sendMessagePath
  rcases hpid : u.partnerId with - | p
  · exact ⟨rfl, rfl⟩
  · dsimp only
    repeat' split
    all_goals exact ⟨rfl, rfl⟩

theorem localUnpaired_getWaitingUsers (st : ServerState)
    (h3 : ∀ q ∈ st.waiting, ∀ u, st.connected (q.2 : WaitingUserR).id = some u →
      u.partnerId = none) :
    ∀ w ∈ getWaitingUsers st, ∀ u, st.connected w.id = some u →
      u.partnerId = none := by
  intro w hw u hu
  rw [getWaitingUsers, List.mem_insertionSort] at hw
  obtain ⟨q, hq, hq2⟩ := List.mem_map.1 hw
  exact h3 q hq u (by rw [hq2]; exact hu)

theorem nodup_ids_getWaitingUsers (st : ServerState)
    (h1 : ∀ q ∈ st.waiting, (q.2 : WaitingUserR).id = q.1)
    (h2 : (st.waiting.map Prod.fst).Nodup) :
    ((getWaitingUsers st).map (fun w => w.id)).Nodup := by
  have hperm := List.perm_insertionSort joinedLe (mapValues st.waiting)
  have hpm : ((getWaitingUsers st).map (fun w => w.id)).Perm
      ((mapValues st.waiting).map (fun w => w.id)) := hperm.map _
  rw [List.Perm.nodup_iff hpm]
  have heq : (mapValues st.waiting).map (fun w => w.id) =
      st.waiting.map Prod.fst := by
    unfold mapValues
    rw [List.map_map]
    exact List.map_congr_left (fun q hq => h1 q hq)
  rw [heq]
  exact h2

theorem Inv_handleFrame (st : ServerState) (uid ty : String) (data : FrameData)
    (now : Nat) (h : Inv st) : Inv (handleFrame st uid ty data now).1 := by
  unfold handleFrame
  rcases hcu : st.connected uid with - | u
  · exact h
  · dsimp only
    by_cases hty1 : ty = "join_queue"
    · simp only [hty1, if_true, reduceIte]
      by_cases hp : u.partnerId.isSome
      · simp only [hp, ite_true]
        exact h
      · have hpn : u.partnerId = none :=
          Option.not_isSome_iff_eq_none.1 (by simpa using hp)
        simp only [hp, Bool.false_eq_true, ite_false]
        have hq1 : Inv { st with waiting := mapSet st.waiting uid { id := uid, ip := u.ip, joinedAt := now } } := by
          refine ⟨h.1, ?_, ?_, ?_⟩
          · intro q hq
            rcases mem_mapSet_weak _ _ _ q hq with hq2 | hq2
            · rw [hq2]
            · exact h.2.1 q hq2
          · exact nodup_keys_mapSet _ _ _ h.2.2.1
          · intro q hq v hv
            rcases mem_mapSet_weak _ _ _ q hq with hq2 | hq2
            · rw [hq2] at hv
              dsimp only at hv
              rw [hcu] at hv
              cases hv
              exact hpn
            · exact h.2.2.2 q hq2 v hv
        refine Inv_mmLoop now _ _ []
          hq1 (localUnpaired_getWaitingUsers _ hq1.2.2.2)
          (nodup_ids_getWaitingUsers _ hq1.2.1 hq1.2.2.1)
    · rw [if_neg hty1]
      by_cases hty2 : ty = "leave_queue"
      · simp only [hty2, if_true, reduceIte]
        refine ⟨h.1, ?_, ?_, ?_⟩
        · intro q hq
          exact h.2.1 q (mem_mapDel hq).1
        · exact nodup_keys_mapDel uid h.2.2.1
        · intro q hq v hv
          exact h.2.2.2 q (mem_mapDel hq).1 v hv
      · rw [if_neg hty2]
        by_cases hty3 : ty = "send_message"
        · simp only [hty3, if_true, reduceIte]
          exact Inv_of_eq (sendMessagePath_state st uid u data now).1
            (sendMessagePath_state st uid u data now).2 h
        · rw [if_neg hty3]
          by_cases hty4 : ty = "typing"
          · simp only [hty4, if_true, reduceIte]
            exact h
          · rw [if_neg hty4]
            by_cases hty5 : ty = "stop_typing"
            · simp only [hty5, if_true, reduceIte]
              exact h
            · rw [if_neg hty5]
              by_cases hty6 : ty = "disconnect_chat"
              · simp only [hty6, if_true, reduceIte]
                rcases hpid : u.partnerId with - | p
                · have hroom : u.roomId = none := by
                    have h2 := (h.1 uid u hcu).2.1
                    rw [hpid] at h2
                    exact Option.not_isSome_iff_eq_none.1 (by
                      rw [← h2]; simp)
                  have hself : { u with partnerId := none, roomId := none }
                      = u := by
                    cases u
                    simp_all
                  simp only [hpid, hroom, hself]
                  refine Inv_of_eq ?_ ?_ h
                  · dsimp only
                    rw [fset_unchanged _ _ _ hcu]
                  · rfl
                · obtain ⟨pu, hpu, -, -⟩ := (h.1 uid u hcu).2.2.2 p hpid
                  simp only [hpid, hpu]
                  refine ⟨LinkInv_unpair h.1 hcu hpid hpu, h.2.1, h.2.2.1, ?_⟩
                  intro q hq v hv
                  dsimp only at hv
                  by_cases hqu : (q.2 : WaitingUserR).id = uid
                  · rw [hqu, fset_at] at hv
                    cases hv
                    rfl
                  · rw [fset_away _ uid _ hqu] at hv
                    by_cases hqp : (q.2 : WaitingUserR).id = p
                    · rw [hqp, fset_at] at hv
                      cases hv
                      rfl
                    · rw [fset_away _ p _ hqp] at hv
                      exact h.2.2.2 q hq v hv
              · rw [if_neg hty6]
                exact h

theorem Inv_step (st : ServerState) (op : Op) (h : Inv st) :
    Inv (step st op) := by
  cases op with
  | connect id ip now => exact Inv_connectStep st id ip now h
  | frame id ty data now => exact Inv_handleFrame st id ty data now h
  | close id => exact Inv_handleDisconnect st id h

theorem Inv_initState (bans : List String) : Inv (initState bans) := by
  refine ⟨?_, ?_, ?_, ?_⟩
  · intro id u hu
    exact Option.noConfusion hu
  · intro q hq
    exact absurd hq (List.not_mem_nil q)
  · exact List.nodup_nil
  · intro q hq
    exact absurd hq (List.not_mem_nil q)

theorem Inv_run (bans : List String) (ops : List Op) : Inv (run bans ops) := by
  have hfold : ∀ (l : List Op) (s : ServerState), Inv s → Inv (l.foldl step s) := by
    intro l
    induction l with
    | nil => exact fun s hs => hs
    | cons op t ih =>
      intro s hs
      exact ih (step s op) (Inv_step s op hs)
  exact hfold ops (initState bans) (Inv_initState bans)

/-- C4.  In every reachable server state (any banned-IP list, any operation
sequence of connections, frames and closes) and for every connected session
`u` stored under key `id`: `u.partnerId` is set iff `u.roomId` is set, and
whenever `u.partnerId = some p` the partner session `p` exists, has
`partnerId = some id` back, and carries the same `roomId`.  The pairing-link
invariant is preserved by `matchUsers` pairing, by `DISCONNECT_CHAT`, and by
the close-handler `handleDisconnect`. -/
theorem pairing_link_invariant (bans : List String) (ops : List Op)
    (id : String) (u : ConnUser)
    (hu : (run bans ops).connected id = some u) :
    (u.partnerId.isSome ↔ u.roomId.isSome) ∧
    (∀ p, u.partnerId = some p →
      ∃ v, (run bans ops).connected p = some v ∧
        v.partnerId = some id ∧ v.roomId = u.roomId) := by
  obtain ⟨-, h2, -, h4⟩ := (Inv_run bans ops).1 id u hu
  exact ⟨by rw [h2], h4⟩

def c4ops : List Op :=
  [Op.connect "a" "ip1" 0, Op.connect "b" "ip2" 0,
   Op.frame "a" "join_queue" FrameData.empty 1,
   Op.frame "b" "join_queue" FrameData.empty 2]

def c4userA : ConnUser :=
  { id := "a", ip := "ip1", partnerId := some "b", roomId := some "uuid-0" }

theorem pairing_link_invariant_witness :
    (run [] c4ops).connected "a" = some c4userA ∧
    ((c4userA.partnerId.isSome ↔ c4userA.roomId.isSome) ∧
     (∀ p, c4userA.partnerId = some p →
       ∃ v, (run [] c4ops).connected p = some v ∧
         v.partnerId = some "a" ∧ v.roomId = c4userA.roomId)) :=
  ⟨by decide, pairing_link_invariant [] c4ops "a" c4userA (by decide)⟩

end AnnonChat
